import Mathlib

/-!
Verification of the karen-cli multi-viewport layout analysis core.

Shallow embedding conventions:
* JS numbers are modelled as `ℚ` (all arithmetic the analyzers perform on
  them is exact rational arithmetic except WCAG luminance, which uses a real
  power and is modelled over `ℝ`).
* JS strings are Lean `String`s; `parseFloat` / `parseInt` are modelled on
  the decimal fragment the analyzers feed them (optional sign, digits,
  optional fractional part; exponent forms and hex prefixes do not occur in
  the analyzed style values and are not modelled).
* A thrown JS exception is modelled by `Option.none` on the function that
  can throw.
* `Math.random()`-driven message selection is modelled by an explicit
  oracle `rand : ℕ → ℕ` indexed by the issue counter; the global
  `generateId` counter is threaded explicitly (it is reset at the start of
  each audit run).
* JS `Map` (insertion-ordered, unique keys) is modelled by an association
  list updated in place on the first matching key and appended otherwise.
-/

set_option maxRecDepth 20000

/-! ## Numeric and string primitives (src/utils, JS semantics) -/

/-- JS `Math.round`: round half toward positive infinity. -/
def jsRound (q : ℚ) : ℤ := ⌊q + 1/2⌋

/-- Digit value of a decimal digit character. -/
def digitVal (c : Char) : Option ℕ :=
  if c.isDigit then some (c.toNat - 48) else none

/-- Take a maximal prefix of decimal digits. -/
def takeDigits : List Char → List ℕ × List Char
  | [] => ([], [])
  | c :: cs =>
    match digitVal c with
    | some d => let (ds, rest) := takeDigits cs; (d :: ds, rest)
    | none => ([], c :: cs)

/-- Value of a digit list, most significant first. -/
def digitsToNat (ds : List ℕ) : ℕ := ds.foldl (fun a d => a * 10 + d) 0

/-- Sign prefix of a JS numeric literal. -/
def takeSign : List Char → ℤ × List Char
  | '-' :: r => (-1, r)
  | '+' :: r => (1, r)
  | r => (1, r)

/-- JS `parseFloat` on the decimal fragment used by style values: skip
leading whitespace, optional sign, digits with optional fractional part,
ignore trailing junk; `none` models `NaN`. -/
def parseFloatJS (s : String) : Option ℚ :=
  let cs := s.data.dropWhile (·.isWhitespace)
  let (sgn, cs1) := takeSign cs
  let (ip, cs2) := takeDigits cs1
  match cs2 with
  | '.' :: cs3 =>
    let (fp, _) := takeDigits cs3
    if ip.isEmpty ∧ fp.isEmpty then none
    else some ((sgn : ℚ) * ((digitsToNat ip : ℚ) + (digitsToNat fp : ℚ) / (10 : ℚ) ^ fp.length))
  | _ => if ip.isEmpty then none else some ((sgn : ℚ) * (digitsToNat ip : ℚ))

/-- JS `parseInt` (radix 10 fragment): skip leading whitespace, optional
sign, maximal digit prefix; `none` models `NaN`. -/
def parseIntJS (s : String) : Option ℤ :=
  let cs := s.data.dropWhile (·.isWhitespace)
  let (sgn, cs1) := takeSign cs
  let (ds, _) := takeDigits cs1
  if ds.isEmpty then none else some (sgn * (digitsToNat ds : ℤ))

/-- JS `String(n).padStart(4, "0")`, as used by `generateId`. -/
def pad4 (n : ℕ) : String :=
  let s := toString n
  if s.length < 4 then String.mk (List.replicate (4 - s.length) '0') ++ s else s

/-- Body of `generateId` (src/utils/id.ts): increment the counter, render
`PREFIX-0001`-style ids. -/
def generateId (pfx : String) (counter : ℕ) : String :=
  pfx ++ "-" ++ pad4 (counter + 1)

/-! ## Data model (src/types/config.ts, types/audit.ts) -/

structure Viewport where
  name : String
  width : ℚ
  height : ℚ
deriving DecidableEq

structure ElementRect where
  x : ℚ
  y : ℚ
  width : ℚ
  height : ℚ
deriving DecidableEq

/-- DOM element tree node with computed style map (association list with
unique keys, like the captured JS style object). -/
inductive DOMElement : Type where
  | mk (selector tagName : String) (classes : List String) (idAttr : String)
      (rect : ElementRect) (computedStyle : List (String × String))
      (children : List DOMElement)

def DOMElement.selector : DOMElement → String
  | .mk s _ _ _ _ _ _ => s

def DOMElement.tagName : DOMElement → String
  | .mk _ t _ _ _ _ _ => t

def DOMElement.rect : DOMElement → ElementRect
  | .mk _ _ _ _ r _ _ => r

def DOMElement.computedStyle : DOMElement → List (String × String)
  | .mk _ _ _ _ _ st _ => st

def DOMElement.children : DOMElement → List DOMElement
  | .mk _ _ _ _ _ _ c => c

structure LayoutMetrics where
  totalElements : ℚ
  visibleElements : ℚ
  overflowingElements : ℚ
  performanceScore : ℚ
deriving DecidableEq

structure ViewportSnapshot where
  viewport : Viewport
  screenshot : String
  dom : List DOMElement
  metrics : LayoutMetrics
  errors : List String

structure Typescale where
  base : ℚ
  ratio : ℚ
  sizes : List ℚ
deriving DecidableEq

structure ContrastRatios where
  AA : ℚ
  AAA : ℚ
deriving DecidableEq

structure LineLength where
  minCh : ℚ
  maxCh : ℚ
deriving DecidableEq

inductive Severity where
  | critical
  | high
  | medium
  | low
deriving DecidableEq

inductive AuditFeature where
  | overflow
  | spacing
  | typescale
  | colors
  | accessibility
  | designSystem
deriving DecidableEq

structure KarenConfig where
  spacingScale : List ℚ
  typescale : Typescale
  colorPalette : List String
  breakpoints : List Viewport
  lineLength : LineLength
  alignTolerancePx : ℚ
  contrastRatios : ContrastRatios
  failOn : List Severity
  features : List AuditFeature
deriving DecidableEq

/-- Structured issue details; one constructor per analyzer, carrying the
typed fields the corresponding detector stores in `details`. Fields whose
source value is a rounded irrational (the rounded perceptual distance and
the rounded contrast ratio) are not carried: no claim inspects them. -/
inductive IssueDetails where
  | spacing (property : String) (value nearestScaleValue : ℚ)
      (spacingScale : List ℚ) (difference : ℚ)
  | alignment (alignmentType : String) (misalignment : ℤ) (tolerance baseline : ℚ)
      (elements : List (String × ℚ × ℚ))
  | grid (alignmentType : String) (childCount : ℕ)
      (horizontalGaps verticalGaps : List (ℤ × ℕ))
      (suggestedHorizontalGap suggestedVerticalGap : ℤ)
  | colorPair (color1 color2 : String) (occurrences1 occurrences2 : ℕ)
      (affectedElements : List String)
  | paletteMiss (color nearestPaletteColor : String) (occurrences : ℕ)
      (palette : List String)
  | contrast (foreground background : String) (required : ℚ) (passes : Bool)
      (wcagLevel : String)
  | overflow (elementWidth : ℤ) (viewportWidth overflowPx : ℚ)
deriving DecidableEq

structure IssueFix where
  file : String
  before : String
  after : String
  explanation : Option String
deriving DecidableEq

structure FixSuggestion where
  suggestion : String
  code : Option IssueFix
deriving DecidableEq

structure Issue where
  id : String
  type : AuditFeature
  severity : Severity
  viewport : String
  element : String
  message : String
  details : IssueDetails
  screenshot : Option String
  fix : Option FixSuggestion
deriving DecidableEq

/-- Style lookup under JS truthiness: a missing key and an empty string are
both falsy. -/
def styleTruthy? (st : List (String × String)) (k : String) : Option String :=
  match st.lookup k with
  | some v => if v = "" then none else some v
  | none => none

/-- Lookup `style[k] || dflt`. -/
def styleOr (st : List (String × String)) (k dflt : String) : String :=
  (styleTruthy? st k).getD dflt

/-! ## Spacing analyzer (src/detectors/spacing.ts) -/

/-- Split a character list at every space character (JS `split(" ")`). -/
def splitSpaceAux : List Char → List Char → List String
  | [], acc => [String.mk acc.reverse]
  | ' ' :: cs, acc => String.mk acc.reverse :: splitSpaceAux cs []
  | c :: cs, acc => splitSpaceAux cs (c :: acc)

/-- JS `s.split(" ")`. -/
def splitOnSpaceJS (s : String) : List String := splitSpaceAux s.data []

/-- Model of `parseSpacing`: split a shorthand on spaces, parse each component,
drop `NaN`s. -/
def parseSpacing (spacingValue : String) : List ℚ :=
  ((splitOnSpaceJS spacingValue).map parseFloatJS).filterMap id

/-- Model of `isOnScale`: some scale entry is within 1px. -/
def isOnScale (value : ℚ) (scale : List ℚ) : Bool :=
  scale.any (fun s => |value - s| < 1)

/-- Model of `findNearest`, i.e. `scale.reduce(...)` with no initial value. On an empty
scale, `Array.prototype.reduce` throws a `TypeError`, modelled as `none`. -/
def findNearest (value : ℚ) (scale : List ℚ) : Option ℚ :=
  match scale with
  | [] => none
  | x :: xs =>
    some (xs.foldl (fun prev curr => if |curr - value| < |prev - value| then curr else prev) x)

/-- The four spacing roast messages (text abbreviated; every claim treats
the message as opaque). -/
def spacingRoasts : List String :=
  ["Random spacing detected. Karen is judging your design tokens.",
   "Karen insists on consistency. Use a value from your scale.",
   "That value is not on the spacing scale.",
   "Arbitrary spacing values. The design system is crying."]

/-- Build one spacing issue (fields as pushed by `analyzeSpacing`). -/
def mkSpacingIssue (cnt msgIdx : ℕ) (vpName sel prop : String)
    (v nearest : ℚ) (scale : List ℚ) : Issue :=
  { id := generateId "SPC" cnt
    type := .spacing
    severity := .medium
    viewport := vpName
    element := sel
    message := spacingRoasts.getD (msgIdx % spacingRoasts.length) ""
    details := .spacing prop v nearest scale |v - nearest|
    screenshot := none
    fix := some
      { suggestion := "Use the nearest value from your spacing scale"
        code := some
          { file := "styles/spacing.css"
            before := sel ++ " \x7b " ++ prop ++ ": " ++ toString v ++ "px; \x7d"
            after := sel ++ " \x7b " ++ prop ++ ": " ++ toString nearest ++ "px; \x7d"
            explanation := some "Aligns to the defined spacing scale" } } }

/-- Margin then padding components of an element, tagged with their
property name. -/
def spacingValuesOf (el : DOMElement) : List (String × ℚ) :=
  let margins := parseSpacing (styleOr el.computedStyle "margin" "0")
  let paddings := parseSpacing (styleOr el.computedStyle "padding" "0")
  margins.map (fun v => ("margin", v)) ++ paddings.map (fun v => ("padding", v))

/-- Inner loop of `analyzeSpacing` over one element's spacing values;
threads the id counter, propagates the `findNearest` exception. -/
def spacingScan (rand : ℕ → ℕ) (scale : List ℚ) (vpName sel : String) :
    List (String × ℚ) → ℕ → Option (List Issue × ℕ)
  | [], cnt => some ([], cnt)
  | (prop, v) :: rest, cnt =>
    if isOnScale v scale = false ∧ v > 0 then
      match findNearest v scale with
      | none => none
      | some nearest =>
        match spacingScan rand scale vpName sel rest (cnt + 1) with
        | none => none
        | some (issues, c2) =>
          some (mkSpacingIssue cnt (rand cnt) vpName sel prop v nearest scale :: issues, c2)
    else spacingScan rand scale vpName sel rest cnt

/-- Loop of `analyzeSpacing` over one snapshot's elements. -/
def spacingElems (rand : ℕ → ℕ) (scale : List ℚ) (vpName : String) :
    List DOMElement → ℕ → Option (List Issue × ℕ)
  | [], cnt => some ([], cnt)
  | el :: rest, cnt =>
    match spacingScan rand scale vpName el.selector (spacingValuesOf el) cnt with
    | none => none
    | some (is1, c1) =>
      match spacingElems rand scale vpName rest c1 with
      | none => none
      | some (is2, c2) => some (is1 ++ is2, c2)

/-- Loop of `analyzeSpacing` over the snapshots. -/
def spacingSnaps (rand : ℕ → ℕ) (scale : List ℚ) :
    List ViewportSnapshot → ℕ → Option (List Issue × ℕ)
  | [], cnt => some ([], cnt)
  | s :: rest, cnt =>
    match spacingElems rand scale s.viewport.name s.dom cnt with
    | none => none
    | some (is1, c1) =>
      match spacingSnaps rand scale rest c1 with
      | none => none
      | some (is2, c2) => some (is1 ++ is2, c2)

/-- Model of `analyzeSpacing` (src/detectors/spacing.ts). `rand` is the message
oracle, `cnt0` the id counter at entry; `none` models the analyzer
throwing. -/
def analyzeSpacing (rand : ℕ → ℕ) (cnt0 : ℕ) (snapshots : List ViewportSnapshot)
    (config : KarenConfig) : Option (List Issue) :=
  (spacingSnaps rand config.spacingScale snapshots cnt0).map (·.1)

/-! ## Shared fixtures -/

/-- The `defaultConfig` of src/types/config.ts. -/
def baseConfig : KarenConfig :=
  { spacingScale := [0, 4, 8, 12, 16, 24, 32, 48, 64]
    typescale := { base := 16, ratio := 5/4, sizes := [12, 14, 16, 20, 25, 31, 39, 49] }
    colorPalette := ["#F5E6D3", "#D4A574", "#8B7355", "#E8998D", "#9CA986", "#B4A7D6"]
    breakpoints :=
      [⟨"xs-mobile", 320, 568⟩, ⟨"mobile", 375, 667⟩, ⟨"lg-mobile", 414, 896⟩,
       ⟨"sm-tablet", 600, 960⟩, ⟨"tablet", 768, 1024⟩, ⟨"lg-tablet", 1024, 1366⟩,
       ⟨"desktop", 1440, 900⟩, ⟨"lg-desktop", 1920, 1080⟩, ⟨"ultrawide", 2560, 1440⟩]
    lineLength := { minCh := 45, maxCh := 75 }
    alignTolerancePx := 4
    contrastRatios := { AA := 9/2, AAA := 7 }
    failOn := [.critical, .high]
    features := [.overflow, .spacing, .typescale, .colors, .accessibility, .designSystem] }

/-- Plain element fixture builder. -/
def mkEl (sel : String) (style : List (String × String)) (r : ElementRect) : DOMElement :=
  .mk sel "DIV" [] "" r style []

/-- Plain snapshot fixture builder. -/
def mkSnap (vpName : String) (w h : ℚ) (dom : List DOMElement) : ViewportSnapshot :=
  { viewport := ⟨vpName, w, h⟩, screenshot := "", dom := dom
    metrics := ⟨0, 0, 0, 0⟩, errors := [] }

/-! ## Fixtures and observation helpers for the claims -/

def c1Element : DOMElement := mkEl ".test" [("margin", "15px")] ⟨0, 0, 100, 100⟩

def c1Snapshot : ViewportSnapshot := mkSnap "mobile" 375 667 [c1Element]

/-- The `defaultConfig` with an empty spacing scale. -/
def c1Config : KarenConfig := { baseConfig with spacingScale := [] }

/-- Erase the (randomly phrased) message of an issue. -/
def stripMessage (iss : Issue) : Issue := { iss with message := "" }

/-- Value field of a spacing issue's details. -/
def IssueDetails.spacingValue? : IssueDetails → Option ℚ
  | .spacing _ v _ _ _ => some v
  | _ => none

/-- The two colors of a near-duplicate issue's details. -/
def IssueDetails.pairColors? : IssueDetails → Option (String × String)
  | .colorPair a b _ _ _ => some (a, b)
  | _ => none

def c8Snapshot : ViewportSnapshot :=
  mkSnap "mobile" 375 667 [mkEl ".test" [("margin", "15px 16px")] ⟨0, 0, 100, 100⟩]

/-! ## Alignment clustering engine (alignment detector) -/

/-- Ascending order on the row axis (`a.rect.y - b.rect.y` comparator). -/
def yLE (a b : DOMElement) : Prop := a.rect.y ≤ b.rect.y

instance : DecidableRel yLE := fun a b => inferInstanceAs (Decidable (a.rect.y ≤ b.rect.y))

instance : IsTotal DOMElement yLE := ⟨fun a b => le_total a.rect.y b.rect.y⟩

instance : IsTrans DOMElement yLE := ⟨fun _ _ _ h1 h2 => le_trans h1 h2⟩

/-- Ascending order on the column axis (`a.rect.x - b.rect.x` comparator). -/
def xLE (a b : DOMElement) : Prop := a.rect.x ≤ b.rect.x

instance : DecidableRel xLE := fun a b => inferInstanceAs (Decidable (a.rect.x ≤ b.rect.x))

instance : IsTotal DOMElement xLE := ⟨fun a b => le_total a.rect.x b.rect.x⟩

instance : IsTrans DOMElement xLE := ⟨fun _ _ _ h1 h2 => le_trans h1 h2⟩

/-- The fixed-anchor clustering walk duplicated verbatim by
`groupElementsByRow` (coord = y) and `groupElementsByColumn` (coord = x):
`cur` is the cluster being grown (anchor first), `anchor` its first
element's coordinate (`none` models the initial `-Infinity`); invisible
elements (zero width or height) are skipped inside the walk; finished
clusters are kept only when they have more than one member. -/
def clusterWalk (tol : ℚ) (coord : DOMElement → ℚ) :
    List DOMElement → List DOMElement → Option ℚ → List (List DOMElement)
  | [], cur, _ => if cur.length > 1 then [cur] else []
  | el :: rest, cur, anchor =>
    if el.rect.width = 0 ∨ el.rect.height = 0 then clusterWalk tol coord rest cur anchor
    else
      match anchor with
      | some a =>
        if |coord el - a| ≤ tol then clusterWalk tol coord rest (cur ++ [el]) (some a)
        else
          (if cur.length > 1 then [cur] else [])
            ++ clusterWalk tol coord rest [el] (some (coord el))
      | none => clusterWalk tol coord rest [el] (some (coord el))

/-- Model of `groupElementsByRow`: stable ascending sort by y (JS `sort` is stable,
as is insertion sort), then the fixed-anchor walk. -/
def groupElementsByRow (elements : List DOMElement) (tol : ℚ) : List (List DOMElement) :=
  clusterWalk tol (fun e => e.rect.y) (List.insertionSort yLE elements) [] none

/-- Model of `groupElementsByColumn`: stable ascending sort by x, then the walk. -/
def groupElementsByColumn (elements : List DOMElement) (tol : ℚ) : List (List DOMElement) :=
  clusterWalk tol (fun e => e.rect.x) (List.insertionSort xLE elements) [] none

/-- JS `Math.max(...l)` on the nonempty coordinate lists the checks build. -/
def listMax : List ℚ → ℚ
  | [] => 0
  | x :: xs => xs.foldl max x

/-- JS `Math.min(...l)` on the nonempty coordinate lists the checks build. -/
def listMin : List ℚ → ℚ
  | [] => 0
  | x :: xs => xs.foldl min x

/-- Insertion-ordered counting-map increment (JS `Map.set(k, get(k)+1)`). -/
def bumpKey {α : Type} [DecidableEq α] : List (α × ℕ) → α → List (α × ℕ)
  | [], k => [(k, 1)]
  | e :: rest, k => if e.1 = k then (e.1, e.2 + 1) :: rest else e :: bumpKey rest k

/-- The `positionCounts` map of a coordinate list. -/
def buildCounts (l : List ℚ) : List (ℚ × ℕ) := l.foldl bumpKey []

/-- Baseline pick `entries.reduce((a,b) => a[1] > b[1] ? a : b)[0]`: keeps the earlier
entry only on a strictly greater count. The `[]` case is unreachable
(clusters are nonempty; the JS `reduce` would throw there). -/
def argmaxCount (l : List (ℚ × ℕ)) : ℚ :=
  match l with
  | [] => 0
  | e :: es => (es.foldl (fun a b => if a.2 > b.2 then a else b) e).1

/-- One misalignment issue as pushed by the row/column alignment checks. -/
def mkAlignIssue (cnt : ℕ) (axis vpName : String) (tol mis : ℚ)
    (row : List DOMElement) (coord : DOMElement → ℚ) : Issue :=
  let baseline := argmaxCount (buildCounts (row.map coord))
  { id := generateId "ALN" cnt
    type := .designSystem
    severity := .medium
    viewport := vpName
    element := String.intercalate ", "
      ((row.filter (fun el => decide (|coord el - baseline| > tol))).map DOMElement.selector)
    message := "Elements not aligned. Karen notices everything."
    details := .alignment axis (jsRound mis) tol baseline
      (row.map (fun el => (el.selector, coord el, |coord el - baseline|)))
    screenshot := none
    fix := some
      { suggestion := "Align elements using flexbox or grid"
        code := some
          { file := "styles/layout.css", before := "", after := "", explanation := none } } }

/-- Shared loop of `checkHorizontalAlignment` / `checkVerticalAlignment`
over the clusters: skip clusters of size < 2, emit a medium issue when the
spread exceeds the tolerance. -/
def alignScan (axis vpName : String) (tol : ℚ) (coord : DOMElement → ℚ) :
    List (List DOMElement) → ℕ → List Issue × ℕ
  | [], cnt => ([], cnt)
  | row :: rest, cnt =>
    if row.length < 2 then alignScan axis vpName tol coord rest cnt
    else
      if listMax (row.map coord) - listMin (row.map coord) > tol then
        let p := alignScan axis vpName tol coord rest (cnt + 1)
        (mkAlignIssue cnt axis vpName tol
            (listMax (row.map coord) - listMin (row.map coord)) row coord :: p.1, p.2)
      else alignScan axis vpName tol coord rest cnt

/-- Model of `checkHorizontalAlignment` (alignment detector). -/
def checkHorizontalAlignment (snapshot : ViewportSnapshot) (tol : ℚ) (cnt : ℕ) :
    List Issue × ℕ :=
  alignScan "horizontal" snapshot.viewport.name tol (fun e => e.rect.y)
    (groupElementsByRow snapshot.dom tol) cnt

/-- Model of `checkVerticalAlignment` (alignment detector). -/
def checkVerticalAlignment (snapshot : ViewportSnapshot) (tol : ℚ) (cnt : ℕ) :
    List Issue × ℕ :=
  alignScan "vertical" snapshot.viewport.name tol (fun e => e.rect.x)
    (groupElementsByColumn snapshot.dom tol) cnt

def c2e1 : DOMElement := mkEl ".item-1" [] ⟨0, 100, 200, 50⟩

def c2e2 : DOMElement := mkEl ".item-2" [] ⟨250, 102, 200, 50⟩

def c2Snapshot : ViewportSnapshot := mkSnap "desktop" 1440 900 [c2e1, c2e2]

/-! ## Grid gap consistency (alignment detector, checkGridAlignment) -/

/-- JS sort comparator of `calculateGaps`: x-ascending within a 10px y
band, else y-ascending; `a` precedes `b` iff the comparator result is ≤ 0.
The JS engine sort and insertion sort are both stable and agree whenever
the comparator is consistent (as on the inputs evaluated below). -/
def gridLE (a b : DOMElement) : Prop :=
  if |a.rect.y - b.rect.y| < 10 then a.rect.x ≤ b.rect.x else a.rect.y ≤ b.rect.y

instance : DecidableRel gridLE := fun a b => by unfold gridLE; infer_instance

/-- Adjacent pairs `(sorted[i], sorted[i+1])`. -/
def adjacentPairs : List DOMElement → List (DOMElement × DOMElement)
  | a :: b :: rest => (a, b) :: adjacentPairs (b :: rest)
  | _ => []

/-- Fold step of `calculateGaps` over one adjacent pair: positive rounded
gaps are counted per axis when the pair shares a 10px row (resp. column)
band. -/
def gapStep (acc : List (ℤ × ℕ) × List (ℤ × ℕ)) (p : DOMElement × DOMElement) :
    List (ℤ × ℕ) × List (ℤ × ℕ) :=
  let cur := p.1
  let next := p.2
  let acc1 :=
    if |cur.rect.y - next.rect.y| < 10 then
      if next.rect.x - (cur.rect.x + cur.rect.width) > 0 then
        (bumpKey acc.1 (jsRound (next.rect.x - (cur.rect.x + cur.rect.width))), acc.2)
      else acc
    else acc
  if |cur.rect.x - next.rect.x| < 10 then
    if next.rect.y - (cur.rect.y + cur.rect.height) > 0 then
      (acc1.1, bumpKey acc1.2 (jsRound (next.rect.y - (cur.rect.y + cur.rect.height))))
    else acc1
  else acc1

/-- Model of `calculateGaps`: insertion-ordered maps from rounded gap value to
occurrence count, per axis. -/
def calculateGaps (elements : List DOMElement) : List (ℤ × ℕ) × List (ℤ × ℕ) :=
  (adjacentPairs (List.insertionSort gridLE elements)).foldl gapStep ([], [])

/-- JS `Array.from(map.values()).reduce((a,b) => a+b, 0)`: the sum of the
counter values of an insertion-ordered counting map (for the gap maps
these are the occurrence counts, not the gap values). -/
def sumCounts {α : Type} (m : List (α × ℕ)) : ℕ := (m.map (fun e => e.2)).sum

/-- One grid-inconsistency issue as pushed by `checkGridAlignment`: the
suggested gaps divide the summed occurrence counts by the number of
distinct gaps (`values()` yields the map's counts). A 0/0 average is JS
`NaN`; `ℚ` division renders it 0, which no claim inspects. -/
def mkGridIssue (cnt : ℕ) (vpName sel : String) (childCount : ℕ)
    (h v : List (ℤ × ℕ)) : Issue :=
  { id := generateId "ALN" cnt
    type := .designSystem
    severity := .medium
    viewport := vpName
    element := sel
    message := "Inconsistent grid spacing. Karen demands symmetry."
    details := .grid "grid" childCount h v
      (jsRound ((sumCounts h : ℚ) / (h.length : ℚ)))
      (jsRound ((sumCounts v : ℚ) / (v.length : ℚ)))
    screenshot := none
    fix := some
      { suggestion := "Use CSS Grid with consistent gap values"
        code := some
          { file := "styles/layout.css", before := "", after := "", explanation := none } } }

/-- Loop of `checkGridAlignment` over candidate grid containers. -/
def gridScan (vpName : String) : List DOMElement → ℕ → List Issue × ℕ
  | [], cnt => ([], cnt)
  | c :: rest, cnt =>
    if c.children.length < 4 then gridScan vpName rest cnt
    else
      if (calculateGaps c.children).1.length > 3 ∨ (calculateGaps c.children).2.length > 3 then
        let p := gridScan vpName rest (cnt + 1)
        (mkGridIssue cnt vpName c.selector c.children.length
            (calculateGaps c.children).1 (calculateGaps c.children).2 :: p.1, p.2)
      else gridScan vpName rest cnt

/-- Model of `checkGridAlignment`: containers are the snapshot elements with ≥ 4
children (the pre-filter plus the redundant in-loop recheck). -/
def checkGridAlignment (snapshot : ViewportSnapshot) (cnt : ℕ) : List Issue × ℕ :=
  gridScan snapshot.viewport.name
    (snapshot.dom.filter (fun el => decide (el.children.length ≥ 4))) cnt

/-- Modelled from the spec: the average of the gap values occurring on an
axis, which §4.4 names as the suggested uniform gap. -/
def specAverageGap (gaps : List ℚ) : ℚ := gaps.sum / (gaps.length : ℚ)

def c3Child (sel : String) (x : ℚ) : DOMElement := mkEl sel [] ⟨x, 0, 100, 100⟩

/-- Grid container with one row of five 100px-wide children at
x = 0, 120, 250, 390, 540: horizontal gaps 20, 30, 40, 50. -/
def c3Container : DOMElement :=
  .mk ".grid-container" "DIV" ["grid"] "" ⟨0, 0, 1000, 700⟩ []
    [c3Child ".g1" 0, c3Child ".g2" 120, c3Child ".g3" 250,
     c3Child ".g4" 390, c3Child ".g5" 540]

def c3Snapshot : ViewportSnapshot := mkSnap "desktop" 1440 900 [c3Container]

/-! ## Fixed-width overflow check (responsive detector, detectFixedWidths) -/

/-- JS `w.endsWith("px")`. -/
def endsWithPx (w : String) : Bool :=
  match w.data.reverse with
  | 'x' :: 'p' :: _ => true
  | _ => false

/-- Element qualification in `detectFixedWidths`: a truthy `width` style
ending in `px` whose `parseInt` value exceeds the viewport width (an
unparsable number is `NaN`, and `NaN > w` is false); returns the parsed
pixel value. -/
def fwCheck (vpw : ℚ) (el : DOMElement) : Option ℤ :=
  match styleTruthy? el.computedStyle "width" with
  | none => none
  | some w =>
    if endsWithPx w = false then none
    else
      match parseIntJS w with
      | none => none
      | some n => if (n : ℚ) > vpw then some n else none

/-- One overflow issue as pushed by `detectFixedWidths`. -/
def mkOverflowIssue (cnt : ℕ) (vpName sel : String) (n : ℤ) (vpw : ℚ) : Issue :=
  { id := generateId "RWD" cnt
    type := .overflow
    severity := .high
    viewport := vpName
    element := sel
    message := "Fixed width wider than the screen. Math is hard, apparently."
    details := .overflow n vpw ((n : ℚ) - vpw)
    screenshot := none
    fix := some
      { suggestion := "Use responsive width or max-width constraint"
        code := some
          { file := "styles/responsive.css", before := "", after := "", explanation := none } } }

/-- Loop of `detectFixedWidths` over the chosen snapshot's elements. -/
def fwScan (vpName : String) (vpw : ℚ) : List DOMElement → ℕ → List Issue × ℕ
  | [], cnt => ([], cnt)
  | el :: rest, cnt =>
    match fwCheck vpw el with
    | some n =>
      let p := fwScan vpName vpw rest (cnt + 1)
      (mkOverflowIssue cnt vpName el.selector n vpw :: p.1, p.2)
    | none => fwScan vpName vpw rest cnt

/-- The `find` predicate: viewport width ≤ 414 and ≥ 320. -/
def inMobileRange (s : ViewportSnapshot) : Bool :=
  decide (s.viewport.width ≤ 414) && decide (320 ≤ s.viewport.width)

/-- Model of `detectFixedWidths` (responsive detector): run on the FIRST snapshot
whose viewport is in [320, 414] (JS `Array.find`), if any. -/
def detectFixedWidths (snapshots : List ViewportSnapshot) (cnt : ℕ) : List Issue × ℕ :=
  match snapshots.find? inMobileRange with
  | none => ([], cnt)
  | some ms => fwScan ms.viewport.name ms.viewport.width ms.dom cnt

def c9Element : DOMElement := mkEl ".wide" [("width", "400px")] ⟨0, 0, 400, 50⟩

def c9SnapA : ViewportSnapshot := mkSnap "lg-mobile" 414 896 [c9Element]

def c9SnapB : ViewportSnapshot := mkSnap "xs-mobile" 320 568 [c9Element]

def c9wEl : DOMElement := mkEl ".hero" [("width", "500px")] ⟨0, 0, 500, 50⟩

def c9wSnap : ViewportSnapshot := mkSnap "mobile" 375 667 [c9wEl]

/-! ## Color palette analyzer (analyzeColors) -/

structure RGB where
  r : ℕ
  g : ℕ
  b : ℕ
deriving DecidableEq

structure ColorUsage where
  count : ℕ
  elements : List String
deriving DecidableEq

/-- Hex digit value, case-insensitive. -/
def hexDigitVal (c : Char) : Option ℕ :=
  if c.isDigit then some (c.toNat - 48)
  else if 'a' ≤ c ∧ c ≤ 'f' then some (c.toNat - 87)
  else if 'A' ≤ c ∧ c ≤ 'F' then some (c.toNat - 55)
  else none

/-- Anchored parse of the hex regexes `^#?([a-f\d]{2})([a-f\d]{2})([a-f\d]{2})$`. -/
def hexTriple? (s : String) : Option RGB :=
  let cs := match s.data with
    | '#' :: rest => rest
    | cs => cs
  match cs with
  | [a, b, c, d, e, f] =>
    match hexDigitVal a, hexDigitVal b, hexDigitVal c,
        hexDigitVal d, hexDigitVal e, hexDigitVal f with
    | some va, some vb, some vc, some vd, some ve, some vf =>
      some ⟨va * 16 + vb, vc * 16 + vd, ve * 16 + vf⟩
    | _, _, _, _, _, _ => none
  | _ => none

/-- Model of `hexToRgb`: black on parse failure. -/
def hexToRgb (hex : String) : RGB := (hexTriple? hex).getD ⟨0, 0, 0⟩

/-- Square of `colorDistance` (redmean-weighted RGB). The source compares
`Math.sqrt(dsq)` against 0, 15 and 20; sqrt is strictly monotone, so the
checks below compare `dsq` against 0, 225 and 400 instead. -/
def colorDistSq (c1 c2 : String) : ℚ :=
  let rgb1 := hexToRgb c1
  let rgb2 := hexToRgb c2
  let rMean : ℚ := ((rgb1.r : ℚ) + (rgb2.r : ℚ)) / 2
  let dr : ℚ := (rgb1.r : ℚ) - (rgb2.r : ℚ)
  let dg : ℚ := (rgb1.g : ℚ) - (rgb2.g : ℚ)
  let db : ℚ := (rgb1.b : ℚ) - (rgb2.b : ℚ)
  (2 + rMean / 256) * dr * dr + 4 * dg * dg + (2 + (255 - rMean) / 256) * db * db

/-- JS `s.toLowerCase()` on the character list. -/
def toLowerJS (s : String) : String := String.mk (s.data.map Char.toLower)

/-- JS `s.toUpperCase()` on the character list. -/
def toUpperJS (s : String) : String := String.mk (s.data.map Char.toUpper)

/-- JS `s.startsWith("#")`. -/
def startsWithHash (s : String) : Bool :=
  match s.data with
  | '#' :: _ => true
  | _ => false

/-- The named-color table of `normalizeColor`. -/
def namedColors : List (String × String) :=
  [("black", "#000000"), ("white", "#FFFFFF"), ("red", "#FF0000"), ("green", "#008000"),
   ("blue", "#0000FF"), ("yellow", "#FFFF00"), ("cyan", "#00FFFF"), ("magenta", "#FF00FF"),
   ("gray", "#808080"), ("grey", "#808080")]

/-- Lowercase hex digit character, as JS `Number.toString(16)` emits. -/
def hexDigitChar (n : ℕ) : Char :=
  if n < 10 then Char.ofNat (48 + n) else Char.ofNat (87 + n)

/-- Hex digits of `n` (fuel-based so the kernel can evaluate it). -/
def natToHexAux : ℕ → ℕ → List Char
  | 0, _ => []
  | fuel + 1, n =>
    if n < 16 then [hexDigitChar n]
    else natToHexAux fuel (n / 16) ++ [hexDigitChar (n % 16)]

def natToHex (n : ℕ) : List Char := natToHexAux (n + 1) n

/-- Model of `rgbToHex`: two-digit-padded hex bytes, uppercased, `#`-prefixed. -/
def rgbToHex (r g b : ℕ) : String :=
  let pad := fun (n : ℕ) =>
    let h := natToHex n
    if h.length = 1 then '0' :: h else h
  toUpperJS (String.mk ('#' :: (pad r ++ pad g ++ pad b)))

/-- Maximal run of `[\d.]` characters (the alpha capture group). -/
def takeAlphaChars : List Char → List Char × List Char
  | [] => ([], [])
  | c :: cs =>
    if c.isDigit ∨ c = '.' then
      let (xs, rest) := takeAlphaChars cs
      (c :: xs, rest)
    else ([], c :: cs)

/-- One-or-more decimal digits. -/
def parseNatDigits (cs : List Char) : Option (ℕ × List Char) :=
  let (ds, rest) := takeDigits cs
  if ds.isEmpty then none else some (digitsToNat ds, rest)

/-- Whitespace run `\s*`. -/
def dropSpaces (cs : List Char) : List Char := cs.dropWhile (·.isWhitespace)

/-- Attempt the `rgba?\((\d+),\s*(\d+),\s*(\d+)(?:,\s*([\d.]+))?\)` pattern
at the start of `cs`; the result's last component is `none` when the alpha
group is absent, `some (parseFloat capture)` when present (a `NaN` alpha is
`some none`). Greedy digit-matching is equivalent to the regex here since
no backtracking of `\d+` can create a `,` or `)`. -/
def parseRgbaAt (cs : List Char) : Option (ℕ × ℕ × ℕ × Option (Option ℚ)) :=
  match cs with
  | 'r' :: 'g' :: 'b' :: rest =>
    let rest1 := match rest with
      | 'a' :: r2 => r2
      | r2 => r2
    match rest1 with
    | '(' :: r3 =>
      match parseNatDigits r3 with
      | none => none
      | some (rv, r4) =>
        match r4 with
        | ',' :: r5 =>
          match parseNatDigits (dropSpaces r5) with
          | none => none
          | some (gv, r6) =>
            match r6 with
            | ',' :: r7 =>
              match parseNatDigits (dropSpaces r7) with
              | none => none
              | some (bv, r8) =>
                match r8 with
                | ')' :: _ => some (rv, gv, bv, none)
                | ',' :: r9 =>
                  match takeAlphaChars (dropSpaces r9) with
                  | ([], _) => none
                  | (as2, r10) =>
                    match r10 with
                    | ')' :: _ => some (rv, gv, bv, some (parseFloatJS (String.mk as2)))
                    | _ => none
                | _ => none
            | _ => none
        | _ => none
    | _ => none
  | _ => none

/-- Leftmost match of the unanchored rgba regex. -/
def scanRgba : List Char → Option (ℕ × ℕ × ℕ × Option (Option ℚ))
  | [] => none
  | c :: cs =>
    match parseRgbaAt (c :: cs) with
    | some r => some r
    | none => scanRgba cs

/-- Model of `normalizeColor`: hex strings are uppercased verbatim, rgb()/rgba()
is normalized (alpha exactly 0 is dropped), named colors are looked up,
anything else is `none`. -/
def normalizeColor (color : String) : Option String :=
  if color = "" ∨ color = "transparent" then none
  else if startsWithHash color then some (toUpperJS color)
  else
    match scanRgba color.data with
    | some (r, g, b, aOpt) =>
      if aOpt = some (some (0 : ℚ)) then none else some (rgbToHex r g b)
    | none => namedColors.lookup (toLowerJS color)

/-- The seven per-element color sources, filtered for truthiness and the
transparent literals. -/
def elementColorStrs (el : DOMElement) : List String :=
  ([styleTruthy? el.computedStyle "color",
    styleTruthy? el.computedStyle "backgroundColor",
    styleTruthy? el.computedStyle "borderColor",
    styleTruthy? el.computedStyle "borderTopColor",
    styleTruthy? el.computedStyle "borderRightColor",
    styleTruthy? el.computedStyle "borderBottomColor",
    styleTruthy? el.computedStyle "borderLeftColor"]).filterMap
    (fun o => match o with
      | some c => if c = "transparent" ∨ c = "rgba(0, 0, 0, 0)" then none else some c
      | none => none)

/-- Record one more occurrence of a color for a selector. -/
def bumpUsage (u : ColorUsage) (sel : String) : ColorUsage :=
  { count := u.count + 1
    elements := if sel ∈ u.elements then u.elements else u.elements ++ [sel] }

/-- Insertion-ordered frequency-map update for one normalized color key. -/
def addColorKey : List (String × ColorUsage) → String → String → List (String × ColorUsage)
  | [], key, sel => [(key, ⟨1, [sel]⟩)]
  | e :: rest, key, sel =>
    if e.1 = key then (e.1, bumpUsage e.2 sel) :: rest else e :: addColorKey rest key sel

/-- Add one raw color occurrence (skipping unnormalizable strings). -/
def addColor (m : List (String × ColorUsage)) (sel c : String) : List (String × ColorUsage) :=
  match normalizeColor c with
  | none => m
  | some key => addColorKey m key sel

/-- The `usedColors` map collected over all snapshots and elements, in
first-occurrence order. -/
def collectColors (snaps : List ViewportSnapshot) : List (String × ColorUsage) :=
  snaps.foldl (fun m s =>
    s.dom.foldl (fun m2 el =>
      (elementColorStrs el).foldl (fun m3 c => addColor m3 el.selector c) m2) m) []

/-- Condition `0 < distance < 15`, stated on the squared distance. -/
def isNearDuplicate (c1 c2 : String) : Bool :=
  decide (0 < colorDistSq c1 c2 ∧ colorDistSq c1 c2 < 225)

/-- JS `[...new Set(l)]`: drop later duplicates. -/
def dedupAux : List String → List String → List String
  | [], _ => []
  | x :: xs, seen => if x ∈ seen then dedupAux xs seen else x :: dedupAux xs (x :: seen)

def dedupKeepFirst (l : List String) : List String := dedupAux l []

/-- One near-duplicate issue: the fix rewrites `color2` to `color1`, the
pair member that was collected FIRST (the rounded sqrt distance field of
the source's details is not carried). -/
def mkPairIssue (cnt : ℕ) (c1 c2 : String × ColorUsage) : Issue :=
  { id := generateId "CLR" cnt
    type := .colors
    severity := .medium
    viewport := "all"
    element := "Multiple elements"
    message := "Two near-identical colors. Pick a system."
    details := .colorPair c1.1 c2.1 c1.2.count c2.2.count
      ((dedupKeepFirst (c1.2.elements ++ c2.2.elements)).take 5)
    screenshot := none
    fix := some
      { suggestion := "Consolidate to a single color."
        code := some
          { file := "styles/colors.css"
            before := "color: " ++ c2.1 ++ ";"
            after := "color: " ++ c1.1 ++ ";"
            explanation := none } } }

/-- Inner `j` loop of the near-duplicate pass. -/
def innerPairScan (c1 : String × ColorUsage) :
    List (String × ColorUsage) → ℕ → List Issue × ℕ
  | [], cnt => ([], cnt)
  | c2 :: rest, cnt =>
    if isNearDuplicate c1.1 c2.1 then
      let p := innerPairScan c1 rest (cnt + 1)
      (mkPairIssue cnt c1 c2 :: p.1, p.2)
    else innerPairScan c1 rest cnt

/-- Outer `i` loop of the near-duplicate pass (the `processedPairs` set of
the source is redundant — map keys are unique, so no pair key repeats —
and is omitted). -/
def pairScan : List (String × ColorUsage) → ℕ → List Issue × ℕ
  | [], cnt => ([], cnt)
  | c1 :: rest, cnt =>
    let p1 := innerPairScan c1 rest cnt
    let p2 := pairScan rest p1.2
    (p1.1 ++ p2.1, p2.2)

/-- Model of `findNearestColor`: first strict minimum of the distance (compared on
squares). On an empty palette the source reads `palette[0]` (undefined),
which the later regex coerces to the string form; modelled verbatim. -/
def findNearestColor (c : String) (palette : List String) : String :=
  match palette with
  | [] => "undefined"
  | p :: ps =>
    (ps.foldl (fun best q =>
      if colorDistSq c q < best.2 then (q, colorDistSq c q) else best)
      (p, colorDistSq c p)).1

/-- One palette-conformance issue (rounded distance field not carried). -/
def mkPaletteIssue (cnt : ℕ) (c : String) (u : ColorUsage) (nearest : String)
    (palette : List String) : Issue :=
  { id := generateId "CLR" cnt
    type := .colors
    severity := .low
    viewport := "all"
    element := u.elements.headD ""
    message := "Color not in your palette."
    details := .paletteMiss c nearest u.count palette
    screenshot := none
    fix := some
      { suggestion := "Use the nearest palette color instead"
        code := some
          { file := "styles/colors.css"
            before := "color: " ++ c ++ ";"
            after := "color: " ++ nearest ++ ";"
            explanation := none } } }

/-- Palette-conformance pass: colors used ≥ 3 times whose distance to the
nearest palette entry exceeds 20 (squared: 400). -/
def paletteScan (palette : List String) :
    List (String × ColorUsage) → ℕ → List Issue × ℕ
  | [], cnt => ([], cnt)
  | cu :: rest, cnt =>
    if cu.2.count < 3 then paletteScan palette rest cnt
    else
      if colorDistSq cu.1 (findNearestColor cu.1 palette) > 400 then
        let p := paletteScan palette rest (cnt + 1)
        (mkPaletteIssue cnt cu.1 cu.2 (findNearestColor cu.1 palette) palette :: p.1, p.2)
      else paletteScan palette rest cnt

/-- Model of `analyzeColors`: collect, then near-duplicate pairs, then palette
conformance. -/
def analyzeColors (snaps : List ViewportSnapshot) (cfg : KarenConfig) (cnt0 : ℕ) :
    List Issue × ℕ :=
  let used := collectColors snaps
  let p1 := pairScan used cnt0
  let p2 := paletteScan cfg.colorPalette used p1.2
  (p1.1 ++ p2.1, p2.2)

def c4El (sel c : String) : DOMElement := mkEl sel [("color", c)] ⟨0, 0, 10, 10⟩

/-- Three `.a` elements using `#AABBC5` collected before five `.b`
elements using `#AABBCC`. -/
def c4Snapshot : ViewportSnapshot :=
  mkSnap "desktop" 1440 900
    [c4El ".a" "#AABBC5", c4El ".a" "#AABBC5", c4El ".a" "#AABBC5",
     c4El ".b" "#AABBCC", c4El ".b" "#AABBCC", c4El ".b" "#AABBCC",
     c4El ".b" "#AABBCC", c4El ".b" "#AABBCC"]

def c4Config : KarenConfig := { baseConfig with colorPalette := ["#AABBCC"] }

def c4Used : List (String × ColorUsage) :=
  [("#AABBC5", ⟨3, [".a"]⟩), ("#AABBCC", ⟨5, [".b"]⟩)]

def dummyIssue : Issue :=
  { id := "", type := .colors, severity := .low, viewport := "", element := ""
    message := "", details := .colorPair "" "" 0 0 [], screenshot := none, fix := none }

/-! ## Accessibility contrast checker (checkAccessibility) -/

/-- Attempt the a11y regex `rgb\((\d+),\s*(\d+),\s*(\d+)\)` at the start
of `cs` (no alpha form, unlike the color analyzer's regex). -/
def parseRgbSimpleAt (cs : List Char) : Option RGB :=
  match cs with
  | 'r' :: 'g' :: 'b' :: '(' :: r3 =>
    match parseNatDigits r3 with
    | none => none
    | some (rv, r4) =>
      match r4 with
      | ',' :: r5 =>
        match parseNatDigits (dropSpaces r5) with
        | none => none
        | some (gv, r6) =>
          match r6 with
          | ',' :: r7 =>
            match parseNatDigits (dropSpaces r7) with
            | none => none
            | some (bv, r8) =>
              match r8 with
              | ')' :: _ => some ⟨rv, gv, bv⟩
              | _ => none
          | _ => none
      | _ => none
  | _ => none

/-- Leftmost unanchored match of the simple rgb pattern. -/
def scanRgbSimple : List Char → Option RGB
  | [] => none
  | c :: cs =>
    match parseRgbSimpleAt (c :: cs) with
    | some r => some r
    | none => scanRgbSimple cs

/-- Model of `parseColor` of the accessibility checker: `rgb(r, g, b)` anywhere in
the string, else an anchored 6-digit hex; anything else is `null`. -/
def parseColor (colorStr : String) : Option RGB :=
  match scanRgbSimple colorStr.data with
  | some rgb => some rgb
  | none => hexTriple? colorStr

/-- sRGB channel linearization (`v := val/255` inlined); real power, as
`Math.pow(x, 2.4)`. -/
noncomputable def srgbChannel (val : ℕ) : ℝ :=
  if ((val : ℝ) / 255) ≤ 0.03928 then ((val : ℝ) / 255) / 12.92
  else (((val : ℝ) / 255 + 0.055) / 1.055) ^ (2.4 : ℝ)

/-- Model of `getLuminance`: WCAG relative luminance. -/
noncomputable def getLuminance (c : RGB) : ℝ :=
  0.2126 * srgbChannel c.r + 0.7152 * srgbChannel c.g + 0.0722 * srgbChannel c.b

/-- Model of `calculateContrast`, i.e. `(lighter + 0.05) / (darker + 0.05)`. -/
noncomputable def calculateContrast (fg bg : RGB) : ℝ :=
  (max (getLuminance fg) (getLuminance bg) + 0.05)
    / (min (getLuminance fg) (getLuminance bg) + 0.05)

/-- Model of `generateAccessibleColor`: black text on light backgrounds, white on
dark ones. -/
noncomputable def generateAccessibleColor (bg : RGB) : String :=
  if getLuminance bg > 0.5 then "#000000" else "#FFFFFF"

/-- Foreground/background resolution of `checkAccessibility`: the style
value falls back to `#000000` / `#ffffff` only when absent or empty (JS
`||`); a PRESENT but unparseable value makes `parseColor` return `null`
and the element is skipped (`none` here, `continue` in the source). -/
def resolveA11yColors (st : List (String × String)) : Option (RGB × RGB) :=
  match parseColor (styleOr st "color" "#000000"),
      parseColor (styleOr st "backgroundColor" "#ffffff") with
  | some fg, some bg => some (fg, bg)
  | _, _ => none

/-- One contrast issue (the 2-decimal rounded ratio of the source's
details is not carried; see `IssueDetails`). -/
noncomputable def mkContrastIssue (cnt : ℕ) (vpName sel shot : String)
    (st : List (String × String)) (required : ℚ) (bg : RGB) : Issue :=
  { id := generateId "A11Y" cnt
    type := .accessibility
    severity := .high
    viewport := vpName
    element := sel
    message := "Low contrast text. Karen is calling WCAG."
    details := .contrast ((st.lookup "color").getD "") ((st.lookup "backgroundColor").getD "")
      required false (if required ≥ 7 then "AAA" else "AA")
    screenshot := some shot
    fix := some
      { suggestion := "Increase contrast to meet WCAG standards"
        code := some
          { file := "styles/colors.css"
            before := "color: " ++ (st.lookup "color").getD "" ++ ";"
            after := "color: " ++ generateAccessibleColor bg ++ ";"
            explanation := none } } }

/-- Loop of `checkAccessibility` over one snapshot's elements: the text
filter (`fontSize` truthy with positive parsed value), color resolution,
then the threshold comparison (AAA below 18px, else AA). -/
noncomputable def a11yScan (cfg : KarenConfig) (vpName shot : String) :
    List DOMElement → ℕ → List Issue × ℕ
  | [], cnt => ([], cnt)
  | el :: rest, cnt =>
    match styleTruthy? el.computedStyle "fontSize" with
    | none => a11yScan cfg vpName shot rest cnt
    | some fsStr =>
      match parseFloatJS fsStr with
      | none => a11yScan cfg vpName shot rest cnt
      | some fs =>
        if fs ≤ 0 then a11yScan cfg vpName shot rest cnt
        else
          match resolveA11yColors el.computedStyle with
          | none => a11yScan cfg vpName shot rest cnt
          | some (fg, bg) =>
            if calculateContrast fg bg
                < (((if fs < 18 then cfg.contrastRatios.AAA else cfg.contrastRatios.AA) : ℚ) : ℝ) then
              let p := a11yScan cfg vpName shot rest (cnt + 1)
              (mkContrastIssue cnt vpName el.selector shot el.computedStyle
                  (if fs < 18 then cfg.contrastRatios.AAA else cfg.contrastRatios.AA) bg :: p.1,
                p.2)
            else a11yScan cfg vpName shot rest cnt

/-- Model of `checkAccessibility` over all snapshots. -/
noncomputable def checkAccessibility (snaps : List ViewportSnapshot) (cfg : KarenConfig)
    (cnt0 : ℕ) : List Issue × ℕ :=
  snaps.foldl (fun acc s =>
    let p := a11yScan cfg s.viewport.name s.screenshot s.dom acc.2
    (acc.1 ++ p.1, p.2)) ([], cnt0)

/-- Element with a positive font size whose `color` is present but
unparseable ("blurple") on a parseable black background. -/
def c6Element : DOMElement :=
  mkEl ".warn" [("fontSize", "16px"), ("color", "blurple"), ("backgroundColor", "#000000")]
    ⟨0, 0, 100, 20⟩

def c6Snapshot : ViewportSnapshot := mkSnap "desktop" 1440 900 [c6Element]

/-! ## Aggregation summary (AuditEngine.buildSummary) -/

structure AuditSummary where
  total : ℕ
  critical : ℕ
  high : ℕ
  medium : ℕ
  low : ℕ
  byType : List (AuditFeature × ℕ)
  byViewport : List (String × ℕ)
deriving DecidableEq

/-- The six initialized per-type counters. -/
def initByType : List (AuditFeature × ℕ) :=
  [(.overflow, 0), (.spacing, 0), (.typescale, 0), (.colors, 0),
   (.accessibility, 0), (.designSystem, 0)]

/-- Fold step of `buildSummary`'s for-loop: `byType[issue.type]++` (the
key is always present — `initByType` covers the `AuditFeature` enum) and
`byViewport[issue.viewport]` initialized to 0 on first sight then
incremented, i.e. a counting-map bump. -/
def summaryStep (s : AuditSummary) (iss : Issue) : AuditSummary :=
  { s with
    byType := bumpKey s.byType iss.type
    byViewport := bumpKey s.byViewport iss.viewport }

/-- The summary object literal before the loop: totals and per-severity
counts via `filter(...).length`. -/
def buildSummaryBase (issues : List Issue) : AuditSummary :=
  { total := issues.length
    critical := (issues.filter (fun i => decide (i.severity = Severity.critical))).length
    high := (issues.filter (fun i => decide (i.severity = Severity.high))).length
    medium := (issues.filter (fun i => decide (i.severity = Severity.medium))).length
    low := (issues.filter (fun i => decide (i.severity = Severity.low))).length
    byType := initByType
    byViewport := [] }

/-- Model of `AuditEngine.buildSummary`. -/
def buildSummary (issues : List Issue) : AuditSummary :=
  issues.foldl summaryStep (buildSummaryBase issues)

/-! ## C1: spacing analyzer on an empty scale -/

/-- C1: with an empty `spacingScale` and an element carrying the off-scale
margin `15px`, `analyzeSpacing` does not return an issue list: `findNearest`
evaluates `[].reduce(...)` with no initial value, which throws a
`TypeError` (modelled as `none`), contradicting the totality claim. -/
theorem analyzeSpacing_empty_scale_crash :
    analyzeSpacing (fun _ => 0) 0 [c1Snapshot] c1Config = none := by
  with_unfolding_all decide

/-! ## C5: determinism modulo message text -/

/-- The same spacing issue built with different message indices agrees after
message erasure. -/
theorem strip_mkSpacingIssue (cnt a b : ℕ) (vp sel prop : String) (v n : ℚ)
    (scale : List ℚ) :
    stripMessage (mkSpacingIssue cnt a vp sel prop v n scale)
      = stripMessage (mkSpacingIssue cnt b vp sel prop v n scale) := rfl

/-- Lemma: `spacingScan` is oracle-independent up to message text. -/
theorem spacingScan_strip (r1 r2 : ℕ → ℕ) (scale : List ℚ) (vp sel : String) :
    ∀ (l : List (String × ℚ)) (cnt : ℕ),
      Option.map (fun p => (p.1.map stripMessage, p.2)) (spacingScan r1 scale vp sel l cnt)
        = Option.map (fun p => (p.1.map stripMessage, p.2)) (spacingScan r2 scale vp sel l cnt) := by
  intro l
  induction l with
  | nil => intro cnt; rfl
  | cons hd tl ih =>
    intro cnt
    obtain ⟨prop, v⟩ := hd
    simp only [spacingScan]
    split
    · cases hfn : findNearest v scale with
      | none => rfl
      | some nearest =>
        have h := ih (cnt + 1)
        cases h1 : spacingScan r1 scale vp sel tl (cnt + 1) with
        | none =>
          cases h2 : spacingScan r2 scale vp sel tl (cnt + 1) with
          | none => rfl
          | some q => rw [h1, h2] at h; simp at h
        | some p =>
          cases h2 : spacingScan r2 scale vp sel tl (cnt + 1) with
          | none => rw [h1, h2] at h; simp at h
          | some q =>
            rw [h1, h2] at h
            simp only [Option.map_some'] at h ⊢
            simp only [Option.some.injEq, Prod.mk.injEq] at h
            obtain ⟨hmap, hcnt⟩ := h
            simp only [List.map_cons, strip_mkSpacingIssue cnt (r1 cnt) (r2 cnt), hcnt]
            rw [show p.1.map stripMessage = q.1.map stripMessage from hmap]
    · exact ih cnt

/-- Lemma: `spacingElems` is oracle-independent up to message text. -/
theorem spacingElems_strip (r1 r2 : ℕ → ℕ) (scale : List ℚ) (vp : String) :
    ∀ (l : List DOMElement) (cnt : ℕ),
      Option.map (fun p => (p.1.map stripMessage, p.2)) (spacingElems r1 scale vp l cnt)
        = Option.map (fun p => (p.1.map stripMessage, p.2)) (spacingElems r2 scale vp l cnt) := by
  intro l
  induction l with
  | nil => intro cnt; rfl
  | cons el tl ih =>
    intro cnt
    simp only [spacingElems]
    have hs := spacingScan_strip r1 r2 scale vp el.selector (spacingValuesOf el) cnt
    cases h1 : spacingScan r1 scale vp el.selector (spacingValuesOf el) cnt with
    | none =>
      cases h2 : spacingScan r2 scale vp el.selector (spacingValuesOf el) cnt with
      | none => rfl
      | some q => rw [h1, h2] at hs; simp at hs
    | some p =>
      cases h2 : spacingScan r2 scale vp el.selector (spacingValuesOf el) cnt with
      | none => rw [h1, h2] at hs; simp at hs
      | some q =>
        obtain ⟨is1, c1⟩ := p
        obtain ⟨is2, c2⟩ := q
        rw [h1, h2] at hs
        simp only [Option.map_some', Option.some.injEq, Prod.mk.injEq] at hs
        obtain ⟨hmap, hcnt⟩ := hs
        subst hcnt
        dsimp only
        have ht := ih c1
        cases h3 : spacingElems r1 scale vp tl c1 with
        | none =>
          cases h4 : spacingElems r2 scale vp tl c1 with
          | none => rfl
          | some q2 => rw [h3, h4] at ht; simp at ht
        | some p2 =>
          cases h4 : spacingElems r2 scale vp tl c1 with
          | none => rw [h3, h4] at ht; simp at ht
          | some q2 =>
            obtain ⟨js1, d1⟩ := p2
            obtain ⟨js2, d2⟩ := q2
            rw [h3, h4] at ht
            simp only [Option.map_some', Option.some.injEq, Prod.mk.injEq] at ht
            obtain ⟨hmap2, hcnt2⟩ := ht
            simp only [Option.map_some', Option.some.injEq, Prod.mk.injEq, List.map_append]
            exact ⟨by rw [hmap, hmap2], hcnt2⟩

/-- Lemma: `spacingSnaps` is oracle-independent up to message text. -/
theorem spacingSnaps_strip (r1 r2 : ℕ → ℕ) (scale : List ℚ) :
    ∀ (l : List ViewportSnapshot) (cnt : ℕ),
      Option.map (fun p => (p.1.map stripMessage, p.2)) (spacingSnaps r1 scale l cnt)
        = Option.map (fun p => (p.1.map stripMessage, p.2)) (spacingSnaps r2 scale l cnt) := by
  intro l
  induction l with
  | nil => intro cnt; rfl
  | cons s tl ih =>
    intro cnt
    simp only [spacingSnaps]
    have hs := spacingElems_strip r1 r2 scale s.viewport.name s.dom cnt
    cases h1 : spacingElems r1 scale s.viewport.name s.dom cnt with
    | none =>
      cases h2 : spacingElems r2 scale s.viewport.name s.dom cnt with
      | none => rfl
      | some q => rw [h1, h2] at hs; simp at hs
    | some p =>
      cases h2 : spacingElems r2 scale s.viewport.name s.dom cnt with
      | none => rw [h1, h2] at hs; simp at hs
      | some q =>
        obtain ⟨is1, c1⟩ := p
        obtain ⟨is2, c2⟩ := q
        rw [h1, h2] at hs
        simp only [Option.map_some', Option.some.injEq, Prod.mk.injEq] at hs
        obtain ⟨hmap, hcnt⟩ := hs
        subst hcnt
        dsimp only
        have ht := ih c1
        cases h3 : spacingSnaps r1 scale tl c1 with
        | none =>
          cases h4 : spacingSnaps r2 scale tl c1 with
          | none => rfl
          | some q2 => rw [h3, h4] at ht; simp at ht
        | some p2 =>
          cases h4 : spacingSnaps r2 scale tl c1 with
          | none => rw [h3, h4] at ht; simp at ht
          | some q2 =>
            obtain ⟨js1, d1⟩ := p2
            obtain ⟨js2, d2⟩ := q2
            rw [h3, h4] at ht
            simp only [Option.map_some', Option.some.injEq, Prod.mk.injEq] at ht
            obtain ⟨hmap2, hcnt2⟩ := ht
            simp only [Option.map_some', Option.some.injEq, Prod.mk.injEq, List.map_append]
            exact ⟨by rw [hmap, hmap2], hcnt2⟩

/-- C5: two runs of the spacing analyzer on identical snapshots and config
differ at most in the randomized message phrasing: erasing messages makes
the outputs (and hence counts, ids, types, severities, viewports, elements,
details and fixes) identical, whatever random draws each run made. -/
theorem analyzeSpacing_deterministic_modulo_message
    (r1 r2 : ℕ → ℕ) (cnt0 : ℕ) (snaps : List ViewportSnapshot) (cfg : KarenConfig) :
    Option.map (List.map stripMessage) (analyzeSpacing r1 cnt0 snaps cfg)
      = Option.map (List.map stripMessage) (analyzeSpacing r2 cnt0 snaps cfg)
    ∧ Option.map List.length (analyzeSpacing r1 cnt0 snaps cfg)
      = Option.map List.length (analyzeSpacing r2 cnt0 snaps cfg) := by
  have h := spacingSnaps_strip r1 r2 cfg.spacingScale snaps cnt0
  unfold analyzeSpacing
  cases h1 : spacingSnaps r1 cfg.spacingScale snaps cnt0 with
  | none =>
    cases h2 : spacingSnaps r2 cfg.spacingScale snaps cnt0 with
    | none => exact ⟨rfl, rfl⟩
    | some q => rw [h1, h2] at h; simp at h
  | some p =>
    cases h2 : spacingSnaps r2 cfg.spacingScale snaps cnt0 with
    | none => rw [h1, h2] at h; simp at h
    | some q =>
      rw [h1, h2] at h
      simp only [Option.map_some'] at h ⊢
      simp only [Option.some.injEq, Prod.mk.injEq] at h
      obtain ⟨hmap, -⟩ := h
      refine ⟨by rw [hmap], ?_⟩
      have : p.1.length = q.1.length := by
        have := congrArg List.length hmap
        simpa using this
      rw [this]

/-! ## C8: scale non-flagging -/

/-- Every issue emitted by `spacingScan` records an off-scale value. -/
theorem spacingScan_details (r : ℕ → ℕ) (scale : List ℚ) (vp sel : String) :
    ∀ (l : List (String × ℚ)) (cnt : ℕ) (out : List Issue × ℕ),
      spacingScan r scale vp sel l cnt = some out →
      ∀ iss ∈ out.1, ∃ prop v nearest,
        iss.details = .spacing prop v nearest scale |v - nearest|
          ∧ isOnScale v scale = false := by
  intro l
  induction l with
  | nil =>
    intro cnt out h iss hm
    simp only [spacingScan, Option.some.injEq] at h
    rw [← h] at hm
    exact absurd hm (List.not_mem_nil iss)
  | cons hd tl ih =>
    intro cnt out h iss hm
    obtain ⟨prop, v⟩ := hd
    simp only [spacingScan] at h
    split at h
    case isTrue hcond =>
      cases hfn : findNearest v scale with
      | none => rw [hfn] at h; simp at h
      | some nearest =>
        rw [hfn] at h
        cases h2 : spacingScan r scale vp sel tl (cnt + 1) with
        | none => rw [h2] at h; simp at h
        | some p =>
          rw [h2] at h
          simp only [Option.some.injEq] at h
          rw [← h] at hm
          rcases List.mem_cons.mp hm with hEq | hMem
          · subst hEq
            exact ⟨prop, v, nearest, rfl, hcond.1⟩
          · exact ih (cnt + 1) p h2 iss hMem
    case isFalse => exact ih cnt out h iss hm

/-- Every issue emitted by `spacingElems` records an off-scale value. -/
theorem spacingElems_details (r : ℕ → ℕ) (scale : List ℚ) (vp : String) :
    ∀ (l : List DOMElement) (cnt : ℕ) (out : List Issue × ℕ),
      spacingElems r scale vp l cnt = some out →
      ∀ iss ∈ out.1, ∃ prop v nearest,
        iss.details = .spacing prop v nearest scale |v - nearest|
          ∧ isOnScale v scale = false := by
  intro l
  induction l with
  | nil =>
    intro cnt out h iss hm
    simp only [spacingElems, Option.some.injEq] at h
    rw [← h] at hm
    exact absurd hm (List.not_mem_nil iss)
  | cons el tl ih =>
    intro cnt out h iss hm
    simp only [spacingElems] at h
    cases h1 : spacingScan r scale vp el.selector (spacingValuesOf el) cnt with
    | none => rw [h1] at h; simp at h
    | some p =>
      obtain ⟨is1, c1⟩ := p
      rw [h1] at h
      dsimp only at h
      cases h2 : spacingElems r scale vp tl c1 with
      | none => rw [h2] at h; simp at h
      | some p2 =>
        rw [h2] at h
        simp only [Option.some.injEq] at h
        rw [← h] at hm
        rcases List.mem_append.mp hm with hMem | hMem
        · exact spacingScan_details r scale vp el.selector (spacingValuesOf el) cnt (is1, c1) h1 iss hMem
        · exact ih c1 p2 h2 iss hMem

/-- Every issue emitted by `spacingSnaps` records an off-scale value. -/
theorem spacingSnaps_details (r : ℕ → ℕ) (scale : List ℚ) :
    ∀ (l : List ViewportSnapshot) (cnt : ℕ) (out : List Issue × ℕ),
      spacingSnaps r scale l cnt = some out →
      ∀ iss ∈ out.1, ∃ prop v nearest,
        iss.details = .spacing prop v nearest scale |v - nearest|
          ∧ isOnScale v scale = false := by
  intro l
  induction l with
  | nil =>
    intro cnt out h iss hm
    simp only [spacingSnaps, Option.some.injEq] at h
    rw [← h] at hm
    exact absurd hm (List.not_mem_nil iss)
  | cons sn tl ih =>
    intro cnt out h iss hm
    simp only [spacingSnaps] at h
    cases h1 : spacingElems r scale sn.viewport.name sn.dom cnt with
    | none => rw [h1] at h; simp at h
    | some p =>
      obtain ⟨is1, c1⟩ := p
      rw [h1] at h
      dsimp only at h
      cases h2 : spacingSnaps r scale tl c1 with
      | none => rw [h2] at h; simp at h
      | some p2 =>
        rw [h2] at h
        simp only [Option.some.injEq] at h
        rw [← h] at hm
        rcases List.mem_append.mp hm with hMem | hMem
        · exact spacingElems_details r scale sn.viewport.name sn.dom cnt (is1, c1) h1 iss hMem
        · exact ih c1 p2 h2 iss hMem

/-- C8: if some scale entry is within 1px of a value `v`, the spacing
analyzer never emits an issue whose recorded value is `v`. -/
theorem spacing_scale_non_flagging (r : ℕ → ℕ) (cnt0 : ℕ)
    (snaps : List ViewportSnapshot) (cfg : KarenConfig) (v s : ℚ)
    (hs : s ∈ cfg.spacingScale) (hnear : |v - s| < 1)
    (issues : List Issue) (hrun : analyzeSpacing r cnt0 snaps cfg = some issues) :
    ∀ iss ∈ issues, iss.details.spacingValue? ≠ some v := by
  intro iss hm hv
  unfold analyzeSpacing at hrun
  cases h1 : spacingSnaps r cfg.spacingScale snaps cnt0 with
  | none => rw [h1] at hrun; simp at hrun
  | some out =>
    rw [h1] at hrun
    simp only [Option.map_some', Option.some.injEq] at hrun
    rw [← hrun] at hm
    obtain ⟨prop, v2, nearest, hdet, hoff⟩ :=
      spacingSnaps_details r cfg.spacingScale snaps cnt0 out h1 iss hm
    rw [hdet] at hv
    simp only [IssueDetails.spacingValue?, Option.some.injEq] at hv
    subst hv
    have hon : isOnScale v2 cfg.spacingScale = true := by
      unfold isOnScale
      rw [List.any_eq_true]
      exact ⟨s, hs, by simpa using hnear⟩
    rw [hon] at hoff
    exact Bool.noConfusion hoff

/-- C8 witness: margin `15px 16px` against the default scale; `16` is on
scale and no emitted issue records the value `16`. -/
theorem spacing_scale_non_flagging_witness :
    (16 : ℚ) ∈ baseConfig.spacingScale ∧ |(16 : ℚ) - 16| < 1 ∧
    ∀ iss ∈ (analyzeSpacing (fun _ => 0) 0 [c8Snapshot] baseConfig).getD [],
      iss.details.spacingValue? ≠ some 16 := by
  refine ⟨by with_unfolding_all decide, by norm_num, ?_⟩
  intro iss hm
  exact spacing_scale_non_flagging (fun _ => 0) 0 [c8Snapshot] baseConfig 16 16
    (by with_unfolding_all decide) (by norm_num) _ (by with_unfolding_all rfl) iss hm

/-! ## C2: fixed-anchor clustering spread bound -/

/-- Fold fact: `xs.foldl max a` is one of `a :: xs`. -/
theorem foldl_max_mem : ∀ (xs : List ℚ) (a : ℚ), xs.foldl max a ∈ a :: xs := by
  intro xs
  induction xs with
  | nil => intro a; simp
  | cons x xs ih =>
    intro a
    simp only [List.foldl_cons]
    rcases List.mem_cons.mp (ih (max a x)) with h1 | h1
    · rcases max_choice a x with h2 | h2
      · rw [h1, h2]; exact List.mem_cons_self _ _
      · rw [h1, h2]; exact List.mem_cons_of_mem _ (List.mem_cons_self _ _)
    · exact List.mem_cons_of_mem _ (List.mem_cons_of_mem _ h1)

/-- Fold fact: `xs.foldl min a` is one of `a :: xs`. -/
theorem foldl_min_mem : ∀ (xs : List ℚ) (a : ℚ), xs.foldl min a ∈ a :: xs := by
  intro xs
  induction xs with
  | nil => intro a; simp
  | cons x xs ih =>
    intro a
    simp only [List.foldl_cons]
    rcases List.mem_cons.mp (ih (min a x)) with h1 | h1
    · rcases min_choice a x with h2 | h2
      · rw [h1, h2]; exact List.mem_cons_self _ _
      · rw [h1, h2]; exact List.mem_cons_of_mem _ (List.mem_cons_self _ _)
    · exact List.mem_cons_of_mem _ (List.mem_cons_of_mem _ h1)

/-- Value `listMax` of a nonempty list is attained. -/
theorem listMax_mem : ∀ (l : List ℚ), l ≠ [] → listMax l ∈ l
  | [], h => absurd rfl h
  | x :: xs, _ => foldl_max_mem xs x

/-- Value `listMin` of a nonempty list is attained. -/
theorem listMin_mem : ∀ (l : List ℚ), l ≠ [] → listMin l ∈ l
  | [], h => absurd rfl h
  | x :: xs, _ => foldl_min_mem xs x

/-- Invariant of the fixed-anchor walk: every produced cluster has pairwise
coordinate differences bounded by the tolerance (the sort makes the anchor
the smallest member, and membership requires being within `tol` of it). -/
theorem clusterWalk_spread (tol : ℚ) (coord : DOMElement → ℚ) :
    ∀ (l cur : List DOMElement) (anchor : Option ℚ),
      List.Pairwise (fun a b => coord a ≤ coord b) l →
      (∀ a, anchor = some a →
        (∀ e ∈ cur, a ≤ coord e ∧ (coord e = a ∨ coord e ≤ a + tol)) ∧
        (2 ≤ cur.length → 0 ≤ tol) ∧
        (∀ e ∈ l, a ≤ coord e)) →
      (anchor = none → cur = []) →
      ∀ row ∈ clusterWalk tol coord l cur anchor,
        ∀ e1 ∈ row, ∀ e2 ∈ row, coord e1 - coord e2 ≤ tol := by
  intro l
  induction l with
  | nil =>
    intro cur anchor _ hinv hnone row hrow e1 h1 e2 h2
    simp only [clusterWalk] at hrow
    split at hrow
    case isTrue hlen =>
      cases anchor with
      | none => rw [hnone rfl] at hlen; simp at hlen
      | some a =>
        rcases List.mem_singleton.mp hrow with rfl
        obtain ⟨hband, htol, -⟩ := hinv a rfl
        have ht : 0 ≤ tol := htol hlen
        have hb1 := hband e1 h1
        have hb2 := hband e2 h2
        rcases hb1.2 with hEq | hLe
        · rw [hEq]; linarith [hb2.1]
        · linarith [hb2.1]
    case isFalse => exact absurd hrow (List.not_mem_nil row)
  | cons el rest ih =>
    intro cur anchor hpair hinv hnone row hrow e1 h1 e2 h2
    rw [List.pairwise_cons] at hpair
    obtain ⟨hheadle, hpair2⟩ := hpair
    simp only [clusterWalk] at hrow
    split at hrow
    case isTrue hinvis =>
      refine ih cur anchor hpair2 ?_ hnone row hrow e1 h1 e2 h2
      intro a ha
      obtain ⟨hband, htol, hl⟩ := hinv a ha
      exact ⟨hband, htol, fun e he => hl e (List.mem_cons_of_mem _ he)⟩
    case isFalse =>
      cases anchor with
      | none =>
        have hcur := hnone rfl
        subst hcur
        refine ih [el] (some (coord el)) hpair2 ?_ (by intro h; cases h) row hrow e1 h1 e2 h2
        intro a ha
        injection ha with ha2
        subst ha2
        refine ⟨?_, ?_, fun e he => hheadle e he⟩
        · intro e he; rcases List.mem_singleton.mp he with rfl; exact ⟨le_refl _, Or.inl rfl⟩
        · intro hlen; simp at hlen
      | some a =>
        obtain ⟨hband, htol, hl⟩ := hinv a rfl
        dsimp only at hrow
        split at hrow
        case isTrue hwithin =>
          refine ih (cur ++ [el]) (some a) hpair2 ?_ (by intro h; cases h) row hrow e1 h1 e2 h2
          intro a2 ha2
          injection ha2 with ha3
          subst ha3
          have helA : a ≤ coord el := hl el (List.mem_cons_self _ _)
          have helB : coord el - a ≤ tol := (abs_le.mp hwithin).2
          have htolnn : 0 ≤ tol := le_trans (abs_nonneg _) hwithin
          refine ⟨?_, fun _ => htolnn, fun e he => hl e (List.mem_cons_of_mem _ he)⟩
          intro e he
          rcases List.mem_append.mp he with hm | hm
          · exact hband e hm
          · rcases List.mem_singleton.mp hm with rfl
            exact ⟨helA, Or.inr (by linarith)⟩
        case isFalse =>
          rcases List.mem_append.mp hrow with hm | hm
          · split at hm
            case isTrue hlen =>
              rcases List.mem_singleton.mp hm with rfl
              have ht : 0 ≤ tol := htol hlen
              have hb1 := hband e1 h1
              have hb2 := hband e2 h2
              rcases hb1.2 with hEq | hLe
              · rw [hEq]; linarith [hb2.1]
              · linarith [hb2.1]
            case isFalse => exact absurd hm (List.not_mem_nil row)
          · refine ih [el] (some (coord el)) hpair2 ?_ (by intro h; cases h) row hm e1 h1 e2 h2
            intro a2 ha2
            injection ha2 with ha3
            subst ha3
            refine ⟨?_, ?_, fun e he => hheadle e he⟩
            · intro e he; rcases List.mem_singleton.mp he with rfl; exact ⟨le_refl _, Or.inl rfl⟩
            · intro hlen; simp at hlen

/-- Every row cluster has y-spread at most the tolerance. -/
theorem groupElementsByRow_spread (els : List DOMElement) (tol : ℚ) :
    ∀ row ∈ groupElementsByRow els tol, ∀ e1 ∈ row, ∀ e2 ∈ row,
      e1.rect.y - e2.rect.y ≤ tol := by
  intro row hrow e1 h1 e2 h2
  have hpair : List.Pairwise (fun a b => a.rect.y ≤ b.rect.y) (List.insertionSort yLE els) :=
    List.sorted_insertionSort yLE els
  exact clusterWalk_spread tol (fun e => e.rect.y) (List.insertionSort yLE els) [] none hpair
    (fun a ha => by cases ha) (fun _ => rfl) row hrow e1 h1 e2 h2

/-- Every column cluster has x-spread at most the tolerance. -/
theorem groupElementsByColumn_spread (els : List DOMElement) (tol : ℚ) :
    ∀ col ∈ groupElementsByColumn els tol, ∀ e1 ∈ col, ∀ e2 ∈ col,
      e1.rect.x - e2.rect.x ≤ tol := by
  intro col hcol e1 h1 e2 h2
  have hpair : List.Pairwise (fun a b => a.rect.x ≤ b.rect.x) (List.insertionSort xLE els) :=
    List.sorted_insertionSort xLE els
  exact clusterWalk_spread tol (fun e => e.rect.x) (List.insertionSort xLE els) [] none hpair
    (fun a ha => by cases ha) (fun _ => rfl) col hcol e1 h1 e2 h2

/-- Lemma: `alignScan` emits nothing when every cluster's spread is bounded. -/
theorem alignScan_no_issues (axis vp : String) (tol : ℚ) (coord : DOMElement → ℚ) :
    ∀ (rows : List (List DOMElement)) (cnt : ℕ),
      (∀ row ∈ rows, ∀ e1 ∈ row, ∀ e2 ∈ row, coord e1 - coord e2 ≤ tol) →
      (alignScan axis vp tol coord rows cnt).1 = [] := by
  intro rows
  induction rows with
  | nil => intro cnt _; rfl
  | cons row rest ih =>
    intro cnt hb
    simp only [alignScan]
    split
    case isTrue => exact ih cnt (fun r hr => hb r (List.mem_cons_of_mem _ hr))
    case isFalse hlen =>
      have hne : row ≠ [] := by
        intro h; rw [h] at hlen; simp at hlen
      have hmapne : row.map coord ≠ [] := by simpa using hne
      obtain ⟨e1, he1, hc1⟩ := List.mem_map.mp (listMax_mem _ hmapne)
      obtain ⟨e2, he2, hc2⟩ := List.mem_map.mp (listMin_mem _ hmapne)
      have hbound : listMax (row.map coord) - listMin (row.map coord) ≤ tol := by
        rw [← hc1, ← hc2]
        exact hb row (List.mem_cons_self _ _) e1 he1 e2 he2
      rw [if_neg (not_lt.mpr hbound)]
      exact ih cnt (fun r hr => hb r (List.mem_cons_of_mem _ hr))

/-- C2: the fixed-anchor grouping bounds every cluster's spread by the
tolerance, so the `spread > tolerance` branch is unreachable and the row
and column alignment checks emit no misalignment issues on any input. -/
theorem alignment_checks_emit_no_issues (snapshot : ViewportSnapshot) (tol : ℚ)
    (cnt1 cnt2 : ℕ) :
    (checkHorizontalAlignment snapshot tol cnt1).1 = []
    ∧ (checkVerticalAlignment snapshot tol cnt2).1 = []
    ∧ (∀ row ∈ groupElementsByRow snapshot.dom tol, ∀ e1 ∈ row, ∀ e2 ∈ row,
        e1.rect.y - e2.rect.y ≤ tol)
    ∧ (∀ col ∈ groupElementsByColumn snapshot.dom tol, ∀ e1 ∈ col, ∀ e2 ∈ col,
        e1.rect.x - e2.rect.x ≤ tol) :=
  ⟨alignScan_no_issues "horizontal" snapshot.viewport.name tol (fun e => e.rect.y)
      (groupElementsByRow snapshot.dom tol) cnt1
      (groupElementsByRow_spread snapshot.dom tol),
   alignScan_no_issues "vertical" snapshot.viewport.name tol (fun e => e.rect.x)
      (groupElementsByColumn snapshot.dom tol) cnt2
      (groupElementsByColumn_spread snapshot.dom tol),
   groupElementsByRow_spread snapshot.dom tol,
   groupElementsByColumn_spread snapshot.dom tol⟩

/-- C2 witness: a concrete two-element row (y = 100 and y = 102, tolerance
4) forms one cluster and triggers no issue. -/
theorem alignment_checks_emit_no_issues_witness :
    groupElementsByRow c2Snapshot.dom 4 = [[c2e1, c2e2]]
    ∧ (checkHorizontalAlignment c2Snapshot 4 0).1 = []
    ∧ c2e1.rect.y - c2e2.rect.y ≤ 4 := by
  have hrows : groupElementsByRow c2Snapshot.dom 4 = [[c2e1, c2e2]] := by
    with_unfolding_all rfl
  refine ⟨hrows, (alignment_checks_emit_no_issues c2Snapshot 4 0 0).1, ?_⟩
  exact (alignment_checks_emit_no_issues c2Snapshot 4 0 0).2.2.1 [c2e1, c2e2]
    (by rw [hrows]; exact List.mem_singleton_self _) c2e1 (by simp) c2e2 (by simp)

/-! ## C3: grid-gap suggested value -/

/-- C3: on a container whose row has gap values 20, 30, 40, 50 (more than
3 distinct), `checkGridAlignment` emits one medium issue, but its
`suggestedHorizontalGap` is 1 — the average of the occurrence counts
(`values()` of the gap map), not the average of the gap values, which is
35 as the claim and spec state. -/
theorem grid_gap_suggestion_averages_counts :
    ((checkGridAlignment c3Snapshot 0).1.map (fun iss => iss.details))
      = [.grid "grid" 5 [(20, 1), (30, 1), (40, 1), (50, 1)] [] 1 0]
    ∧ ((checkGridAlignment c3Snapshot 0).1.map (fun iss => iss.severity)) = [.medium]
    ∧ specAverageGap [20, 30, 40, 50] = 35
    ∧ (1 : ℤ) ≠ 35 := by
  with_unfolding_all decide

/-! ## C9: which snapshot the overflow check runs on -/

/-- C9 counterexample: with snapshots ordered [414px, 320px], both in
range, the narrowest is the 320px snapshot, whose element has literal
width 400px > 320 — the claim demands one high overflow issue — but the
detector checks the FIRST in-range snapshot (414px), where 400 ≤ 414, and
emits nothing. -/
theorem fixed_width_checks_first_not_narrowest :
    (detectFixedWidths [c9SnapA, c9SnapB] 0).1 = []
    ∧ inMobileRange c9SnapB = true
    ∧ (∀ s ∈ [c9SnapA, c9SnapB], inMobileRange s = true →
        c9SnapB.viewport.width ≤ s.viewport.width)
    ∧ styleTruthy? c9Element.computedStyle "width" = some "400px"
    ∧ endsWithPx "400px" = true
    ∧ parseIntJS "400px" = some 400
    ∧ (400 : ℚ) > c9SnapB.viewport.width := by
  with_unfolding_all decide

/-- Issues of `fwScan` correspond to qualifying elements: per selector,
severity and details are determined by the parsed width. -/
theorem fwScan_sel_details (vpName : String) (vpw : ℚ) (sel : String) (n : ℤ) :
    ∀ (dom : List DOMElement) (cnt : ℕ),
      (∀ e ∈ dom, e.selector = sel → fwCheck vpw e = some n) →
      ∀ iss ∈ (fwScan vpName vpw dom cnt).1, iss.element = sel →
        iss.severity = .high ∧ iss.details = .overflow n vpw ((n : ℚ) - vpw) := by
  intro dom
  induction dom with
  | nil => intro cnt _ iss hm; exact absurd hm (List.not_mem_nil iss)
  | cons e rest ih =>
    intro cnt hsel iss hm hel
    simp only [fwScan] at hm
    cases hq : fwCheck vpw e with
    | some m =>
      rw [hq] at hm
      rcases List.mem_cons.mp hm with hEq | hMem
      · subst hEq
        have hes : e.selector = sel := hel
        have : fwCheck vpw e = some n := hsel e (List.mem_cons_self _ _) hes
        rw [hq] at this
        injection this with hmn
        subst hmn
        exact ⟨rfl, by rw [hes]; rfl⟩
      · exact ih (cnt + 1) (fun x hx => hsel x (List.mem_cons_of_mem _ hx)) iss hMem hel
    | none =>
      rw [hq] at hm
      exact ih cnt (fun x hx => hsel x (List.mem_cons_of_mem _ hx)) iss hm hel

/-- Lemma: `fwScan` emits exactly one issue per qualifying element. -/
theorem fwScan_countP (vpName : String) (vpw : ℚ) (sel : String) :
    ∀ (dom : List DOMElement) (cnt : ℕ),
      (fwScan vpName vpw dom cnt).1.countP (fun iss => decide (iss.element = sel))
        = dom.countP (fun e => decide (e.selector = sel) && (fwCheck vpw e).isSome) := by
  intro dom
  induction dom with
  | nil => intro cnt; rfl
  | cons e rest ih =>
    intro cnt
    simp only [fwScan]
    cases hq : fwCheck vpw e with
    | some m =>
      simp only [List.countP_cons, ih (cnt + 1), hq, Option.isSome_some, Bool.and_true]
      rfl
    | none =>
      simp only [List.countP_cons, ih cnt, hq, Option.isSome_none, Bool.and_false]
      simp

/-- C9 amended: the check runs on the FIRST snapshot (input order) whose
viewport width is in [320, 414]; there, every element whose `width` style
is a pixel literal exceeding the viewport width (and whose selector is
unique in the snapshot) yields exactly one high-severity issue reporting
`overflow = width - viewportWidth`. -/
theorem fixed_width_overflow_first_in_range
    (snaps : List ViewportSnapshot) (s : ViewportSnapshot) (cnt : ℕ)
    (el : DOMElement) (n : ℤ)
    (hfind : snaps.find? inMobileRange = some s)
    (hel : el ∈ s.dom)
    (hsel : ∀ e ∈ s.dom, e.selector = el.selector → fwCheck s.viewport.width e = some n)
    (huniq : s.dom.countP (fun e => decide (e.selector = el.selector)) = 1) :
    ((detectFixedWidths snaps cnt).1.countP (fun iss => decide (iss.element = el.selector))) = 1
    ∧ ∀ iss ∈ (detectFixedWidths snaps cnt).1, iss.element = el.selector →
        iss.severity = .high
        ∧ iss.details = .overflow n s.viewport.width ((n : ℚ) - s.viewport.width) := by
  have hdet : detectFixedWidths snaps cnt
      = fwScan s.viewport.name s.viewport.width s.dom cnt := by
    unfold detectFixedWidths
    rw [hfind]
  constructor
  · rw [hdet, fwScan_countP]
    rw [← huniq]
    apply List.countP_congr
    intro e he
    constructor
    · intro hb
      simp only [Bool.and_eq_true, decide_eq_true_eq] at hb
      simp only [decide_eq_true_eq]
      exact hb.1
    · intro hb
      simp only [decide_eq_true_eq] at hb
      simp only [Bool.and_eq_true, decide_eq_true_eq]
      exact ⟨hb, by rw [hsel e he hb]; rfl⟩
  · intro iss hm hel2
    rw [hdet] at hm
    exact fwScan_sel_details s.viewport.name s.viewport.width el.selector n s.dom cnt
      hsel iss hm hel2

/-- C9 amended witness: the spec scenario — literal width 500px on the
375px viewport — yields exactly one high issue with overflow 125. -/
theorem fixed_width_overflow_first_in_range_witness :
    ((detectFixedWidths [c9wSnap] 0).1.countP (fun iss => decide (iss.element = ".hero"))) = 1
    ∧ (∀ iss ∈ (detectFixedWidths [c9wSnap] 0).1, iss.element = ".hero" →
        iss.severity = .high ∧ iss.details = .overflow 500 375 ((500 : ℚ) - 375))
    ∧ (500 : ℚ) - 375 = 125 := by
  have h := fixed_width_overflow_first_in_range [c9wSnap] c9wSnap 0 c9wEl 500
    (by with_unfolding_all rfl) (List.mem_cons_self _ _)
    (by
      intro e he hs
      rcases List.mem_singleton.mp he with rfl
      with_unfolding_all rfl)
    (by with_unfolding_all decide)
  exact ⟨h.1, h.2, by norm_num⟩

/-! ## C4: which color the near-duplicate fix recommends -/

/-- C4 counterexample: `#AABBC5` (3 uses) is collected before `#AABBCC`
(5 uses); their distance is ≈ 10.7 (squared 29253/256 < 225), so exactly
one medium near-duplicate issue is emitted — but its fix consolidates onto
`#AABBC5`, the FIRST-collected color, although `#AABBCC` has the higher
occurrence count, contradicting the claim. -/
theorem color_pair_recommends_first_collected_not_higher_count :
    ((analyzeColors [c4Snapshot] c4Config 0).1.map (fun iss => iss.details))
      = [.colorPair "#AABBC5" "#AABBCC" 3 5 [".a", ".b"]]
    ∧ ((analyzeColors [c4Snapshot] c4Config 0).1.map (fun iss => iss.severity))
      = [.medium]
    ∧ ((analyzeColors [c4Snapshot] c4Config 0).1.map
        (fun iss => iss.fix.map (fun f => f.code.map (fun cd => cd.after))))
      = [some (some "color: #AABBC5;")]
    ∧ (3 : ℕ) < 5
    ∧ 0 < colorDistSq "#AABBC5" "#AABBCC"
    ∧ colorDistSq "#AABBC5" "#AABBCC" < 225 := by
  with_unfolding_all decide

/-- Issues of the inner pair loop pair the fixed `c1` with a later entry. -/
theorem innerPairScan_shape (c1 : String × ColorUsage) :
    ∀ (rest : List (String × ColorUsage)) (cnt : ℕ),
      ∀ iss ∈ (innerPairScan c1 rest cnt).1, ∃ c2 ∈ rest,
        isNearDuplicate c1.1 c2.1 = true
        ∧ iss.severity = .medium
        ∧ iss.details = .colorPair c1.1 c2.1 c1.2.count c2.2.count
            ((dedupKeepFirst (c1.2.elements ++ c2.2.elements)).take 5)
        ∧ iss.fix = some
            { suggestion := "Consolidate to a single color."
              code := some
                { file := "styles/colors.css"
                  before := "color: " ++ c2.1 ++ ";"
                  after := "color: " ++ c1.1 ++ ";"
                  explanation := none } } := by
  intro rest
  induction rest with
  | nil => intro cnt iss hm; exact absurd hm (List.not_mem_nil iss)
  | cons c2 rest ih =>
    intro cnt iss hm
    simp only [innerPairScan] at hm
    split at hm
    case isTrue hdup =>
      rcases List.mem_cons.mp hm with hEq | hMem
      · subst hEq
        exact ⟨c2, List.mem_cons_self _ _, hdup, rfl, rfl, rfl⟩
      · obtain ⟨c3, hc3, hrest⟩ := ih (cnt + 1) iss hMem
        exact ⟨c3, List.mem_cons_of_mem _ hc3, hrest⟩
    case isFalse =>
      obtain ⟨c3, hc3, hrest⟩ := ih cnt iss hm
      exact ⟨c3, List.mem_cons_of_mem _ hc3, hrest⟩

/-- Every emitted near-duplicate issue pairs two colors in their
collection order ([(c1,u1),(c2,u2)] is a sublist of the frequency table),
is medium severity, and its fix consolidates onto `c1`, the
FIRST-collected color of the pair. -/
theorem pairScan_issue_shape
    (used : List (String × ColorUsage)) (cnt : ℕ) (iss : Issue)
    (hm : iss ∈ (pairScan used cnt).1) :
    ∃ c1 u1 c2 u2,
      List.Sublist [(c1, u1), (c2, u2)] used
      ∧ isNearDuplicate c1 c2 = true
      ∧ iss.severity = .medium
      ∧ iss.details = .colorPair c1 c2 u1.count u2.count
          ((dedupKeepFirst (u1.elements ++ u2.elements)).take 5)
      ∧ iss.fix = some
          { suggestion := "Consolidate to a single color."
            code := some
              { file := "styles/colors.css"
                before := "color: " ++ c2 ++ ";"
                after := "color: " ++ c1 ++ ";"
                explanation := none } } := by
  induction used generalizing cnt with
  | nil => exact absurd hm (List.not_mem_nil iss)
  | cons c1 rest ih =>
    simp only [pairScan] at hm
    rcases List.mem_append.mp hm with hMem | hMem
    · obtain ⟨c2, hc2, hdup, hsev, hdet, hfix⟩ := innerPairScan_shape c1 rest cnt iss hMem
      refine ⟨c1.1, c1.2, c2.1, c2.2, ?_, hdup, hsev, hdet, hfix⟩
      exact List.Sublist.cons₂ c1 (List.singleton_sublist.mpr hc2)
    · obtain ⟨a1, u1, a2, u2, hsub, hrest⟩ := ih _ hMem
      exact ⟨a1, u1, a2, u2, List.Sublist.cons c1 hsub, hrest⟩

/-! ## C7: exact contrast values -/

/-- Channel linearization is nonnegative. -/
theorem srgbChannel_nonneg (n : ℕ) : 0 ≤ srgbChannel n := by
  unfold srgbChannel
  split
  · positivity
  · positivity

/-- Luminance is nonnegative. -/
theorem getLuminance_nonneg (c : RGB) : 0 ≤ getLuminance c := by
  unfold getLuminance
  have h1 := srgbChannel_nonneg c.r
  have h2 := srgbChannel_nonneg c.g
  have h3 := srgbChannel_nonneg c.b
  linarith

/-- Identical colors yield contrast exactly 1. -/
theorem contrast_self (c : RGB) : calculateContrast c c = 1 := by
  unfold calculateContrast
  rw [max_self, min_self]
  have h := getLuminance_nonneg c
  exact div_self (by linarith)

/-- The 255 channel linearizes to exactly 1. -/
theorem srgbChannel_255 : srgbChannel 255 = 1 := by
  unfold srgbChannel
  rw [if_neg (by norm_num)]
  have h : (((255 : ℕ) : ℝ) / 255 + 0.055) / 1.055 = 1 := by norm_num
  rw [h, Real.one_rpow]

/-- The 0 channel linearizes to exactly 0. -/
theorem srgbChannel_0 : srgbChannel 0 = 0 := by
  unfold srgbChannel
  rw [if_pos (by norm_num)]
  norm_num

/-- White has luminance exactly 1. -/
theorem getLuminance_white : getLuminance ⟨255, 255, 255⟩ = 1 := by
  show 0.2126 * srgbChannel 255 + 0.7152 * srgbChannel 255 + 0.0722 * srgbChannel 255 = 1
  rw [srgbChannel_255]
  norm_num

/-- Black has luminance exactly 0. -/
theorem getLuminance_black : getLuminance ⟨0, 0, 0⟩ = 0 := by
  show 0.2126 * srgbChannel 0 + 0.7152 * srgbChannel 0 + 0.0722 * srgbChannel 0 = 0
  rw [srgbChannel_0]
  norm_num

/-- C7: contrast(white, white) = 1 exactly, contrast(black, white) = 21
exactly, and identical foreground/background fails every required ratio
strictly greater than 1. -/
theorem contrast_exact_values :
    calculateContrast ⟨255, 255, 255⟩ ⟨255, 255, 255⟩ = 1
    ∧ calculateContrast ⟨0, 0, 0⟩ ⟨255, 255, 255⟩ = 21
    ∧ ∀ (c : RGB) (r : ℝ), 1 < r → calculateContrast c c < r := by
  refine ⟨contrast_self _, ?_, ?_⟩
  · unfold calculateContrast
    rw [getLuminance_black, getLuminance_white]
    rw [show max (0 : ℝ) 1 = 1 from max_eq_right (by norm_num),
        show min (0 : ℝ) 1 = 0 from min_eq_left (by norm_num)]
    norm_num
  · intro c r hr
    rw [contrast_self]
    exact hr

/-- C7 witness: gray on gray fails the concrete required ratio 2. -/
theorem contrast_exact_values_witness :
    (1 : ℝ) < 2 ∧ calculateContrast ⟨128, 128, 128⟩ ⟨128, 128, 128⟩ < 2 :=
  ⟨one_lt_two, contrast_exact_values.2.2 ⟨128, 128, 128⟩ 2 one_lt_two⟩

/-! ## C6: contrast-checker defaults -/

/-- C6 counterexample: an element with font size 16px, the PRESENT but
unparseable color "blurple" and black background is skipped — the checker
emits nothing — although under the claim the foreground would default to
black on black, contrast 1 < 7 (AAA), and one issue would be required. -/
theorem contrast_unparseable_color_skipped :
    (checkAccessibility [c6Snapshot] baseConfig 0).1 = []
    ∧ styleTruthy? c6Element.computedStyle "color" = some "blurple"
    ∧ parseColor "blurple" = none
    ∧ resolveA11yColors c6Element.computedStyle = none
    ∧ calculateContrast ⟨0, 0, 0⟩ ⟨0, 0, 0⟩ < ((7 : ℚ) : ℝ) := by
  refine ⟨by with_unfolding_all rfl, by decide, by decide, by decide, ?_⟩
  rw [contrast_self]
  norm_num

/-- C6 amended: the black/white defaults apply exactly when the `color` /
`background-color` styles are absent or empty; the element is then not
skipped (both colors resolve) and the comparison proceeds on black text
over a white background. -/
theorem contrast_defaults_when_absent (st : List (String × String))
    (hfg : styleTruthy? st "color" = none)
    (hbg : styleTruthy? st "backgroundColor" = none) :
    resolveA11yColors st = some (⟨0, 0, 0⟩, ⟨255, 255, 255⟩) := by
  unfold resolveA11yColors styleOr
  rw [hfg, hbg]
  decide

/-- C6 amended witness: an element styled only with a font size resolves
to black on white. -/
theorem contrast_defaults_when_absent_witness :
    styleTruthy? ([("fontSize", "16px")] : List (String × String)) "color" = none
    ∧ styleTruthy? ([("fontSize", "16px")] : List (String × String)) "backgroundColor" = none
    ∧ resolveA11yColors [("fontSize", "16px")] = some (⟨0, 0, 0⟩, ⟨255, 255, 255⟩) :=
  ⟨by decide, by decide, contrast_defaults_when_absent _ (by decide) (by decide)⟩

/-! ## C10: summary consistency -/

/-- The four severity filters partition the issue list. -/
theorem length_eq_severity_partition (issues : List Issue) :
    (issues.filter (fun i => decide (i.severity = Severity.critical))).length
    + (issues.filter (fun i => decide (i.severity = Severity.high))).length
    + (issues.filter (fun i => decide (i.severity = Severity.medium))).length
    + (issues.filter (fun i => decide (i.severity = Severity.low))).length
    = issues.length := by
  induction issues with
  | nil => rfl
  | cons iss rest ih =>
    cases h : iss.severity <;>
      simp [List.filter_cons, h, List.length_cons] <;>
      omega

/-- The summary loop never changes the totals computed up front. -/
theorem summaryFold_sev (issues : List Issue) :
    ∀ s0 : AuditSummary,
      (issues.foldl summaryStep s0).total = s0.total
      ∧ (issues.foldl summaryStep s0).critical = s0.critical
      ∧ (issues.foldl summaryStep s0).high = s0.high
      ∧ (issues.foldl summaryStep s0).medium = s0.medium
      ∧ (issues.foldl summaryStep s0).low = s0.low := by
  induction issues with
  | nil => intro s0; exact ⟨rfl, rfl, rfl, rfl, rfl⟩
  | cons iss rest ih =>
    intro s0
    simp only [List.foldl_cons]
    exact ih (summaryStep s0 iss)

/-- Bumping a counting map adds exactly one to its count sum. -/
theorem sumCounts_bumpKey {α : Type} [DecidableEq α] (m : List (α × ℕ)) (k : α) :
    sumCounts (bumpKey m k) = sumCounts m + 1 := by
  induction m with
  | nil => rfl
  | cons e rest ih =>
    simp only [bumpKey]
    split
    · simp only [sumCounts, List.map_cons, List.sum_cons]
      omega
    · simp only [sumCounts, List.map_cons, List.sum_cons] at ih ⊢
      omega

/-- Each issue contributes exactly one viewport-counter increment. -/
theorem summaryFold_byViewport (issues : List Issue) :
    ∀ s0 : AuditSummary,
      sumCounts (issues.foldl summaryStep s0).byViewport
        = sumCounts s0.byViewport + issues.length := by
  induction issues with
  | nil => intro s0; simp
  | cons iss rest ih =>
    intro s0
    simp only [List.foldl_cons, List.length_cons]
    rw [ih (summaryStep s0 iss)]
    have hb : sumCounts (summaryStep s0 iss).byViewport
        = sumCounts s0.byViewport + 1 := sumCounts_bumpKey s0.byViewport iss.viewport
    rw [hb]
    omega

/-- C10: for every issue list the summary satisfies
`total = length = critical + high + medium + low`, the byViewport counters
sum to `total`, and the empty list yields the all-zero summary with empty
`byViewport`. -/
theorem summary_counts_consistent (issues : List Issue) :
    (buildSummary issues).total = issues.length
    ∧ (buildSummary issues).critical + (buildSummary issues).high
        + (buildSummary issues).medium + (buildSummary issues).low
        = (buildSummary issues).total
    ∧ sumCounts (buildSummary issues).byViewport = (buildSummary issues).total
    ∧ buildSummary []
        = { total := 0, critical := 0, high := 0, medium := 0, low := 0,
            byType := initByType, byViewport := [] } := by
  obtain ⟨h1, h2, h3, h4, h5⟩ := summaryFold_sev issues (buildSummaryBase issues)
  have hv := summaryFold_byViewport issues (buildSummaryBase issues)
  refine ⟨h1, ?_, ?_, rfl⟩
  · show (buildSummary issues).critical + (buildSummary issues).high
        + (buildSummary issues).medium + (buildSummary issues).low
        = (buildSummary issues).total
    unfold buildSummary
    rw [h1, h2, h3, h4, h5]
    exact length_eq_severity_partition issues
  · unfold buildSummary
    rw [hv, h1]
    show 0 + issues.length = issues.length
    omega

/-- A fold preserving a property preserves it over a whole list. -/
theorem foldl_preserve {α β : Type} (P : β → Prop) (f : β → α → β)
    (hf : ∀ b a, P b → P (f b a)) :
    ∀ (l : List α) (b : β), P b → P (l.foldl f b) := by
  intro l
  induction l with
  | nil => intro b hb; exact hb
  | cons a rest ih => intro b hb; exact ih (f b a) (hf b a hb)

/-- Keys of `addColorKey` are the old keys plus possibly the new one. -/
theorem addColorKey_keys (k sel : String) :
    ∀ (m : List (String × ColorUsage)),
      ∀ x ∈ addColorKey m k sel, x.1 = k ∨ ∃ y ∈ m, x.1 = y.1 := by
  intro m
  induction m with
  | nil =>
    intro x hx
    rcases List.mem_singleton.mp hx with rfl
    exact Or.inl rfl
  | cons e rest ih =>
    intro x hx
    simp only [addColorKey] at hx
    split at hx
    · rcases List.mem_cons.mp hx with hEq | hMem
      · subst hEq; exact Or.inr ⟨e, List.mem_cons_self _ _, rfl⟩
      · exact Or.inr ⟨x, List.mem_cons_of_mem _ hMem, rfl⟩
    · rcases List.mem_cons.mp hx with hEq | hMem
      · subst hEq; exact Or.inr ⟨x, List.mem_cons_self _ _, rfl⟩
      · rcases ih x hMem with h | ⟨y, hy, hxy⟩
        · exact Or.inl h
        · exact Or.inr ⟨y, List.mem_cons_of_mem _ hy, hxy⟩

/-- `addColorKey` keeps the map's keys pairwise distinct. -/
theorem addColorKey_pairwise (k sel : String) :
    ∀ (m : List (String × ColorUsage)),
      m.Pairwise (fun a b => a.1 ≠ b.1) →
      (addColorKey m k sel).Pairwise (fun a b => a.1 ≠ b.1) := by
  intro m
  induction m with
  | nil => intro _; exact List.pairwise_singleton _ _
  | cons e rest ih =>
    intro hp
    rw [List.pairwise_cons] at hp
    obtain ⟨h1, h2⟩ := hp
    simp only [addColorKey]
    split
    case isTrue heq =>
      rw [List.pairwise_cons]
      exact ⟨h1, h2⟩
    case isFalse hne =>
      rw [List.pairwise_cons]
      refine ⟨?_, ih h2⟩
      intro b hb
      rcases addColorKey_keys k sel rest b hb with hk | ⟨y, hy, hby⟩
      · rw [hk]; exact hne
      · rw [hby]; exact h1 y hy

/-- `addColor` keeps the map's keys pairwise distinct. -/
theorem addColor_pairwise (sel c : String) (m : List (String × ColorUsage))
    (hm : m.Pairwise (fun a b => a.1 ≠ b.1)) :
    (addColor m sel c).Pairwise (fun a b => a.1 ≠ b.1) := by
  unfold addColor
  cases normalizeColor c with
  | none => exact hm
  | some key => exact addColorKey_pairwise key sel m hm

/-- The collected frequency table has pairwise-distinct color keys (it
models a JS `Map`). -/
theorem collectColors_keys_nodup (snaps : List ViewportSnapshot) :
    (collectColors snaps).Pairwise (fun a b => a.1 ≠ b.1) := by
  unfold collectColors
  refine foldl_preserve _ _ ?_ snaps [] List.Pairwise.nil
  intro m s hm
  refine foldl_preserve _ _ ?_ s.dom m hm
  intro m2 el hm2
  refine foldl_preserve _ _ ?_ (elementColorStrs el) m2 hm2
  intro m3 c hm3
  exact addColor_pairwise el.selector c m3 hm3

/-- In a distinct-key table a key occurring as an entry occurs exactly
once. -/
theorem countP_key_eq_one {l : List (String × ColorUsage)} {k : String} {v : ColorUsage}
    (hnd : l.Pairwise (fun a b => a.1 ≠ b.1)) (hm : (k, v) ∈ l) :
    l.countP (fun x => decide (x.1 = k)) = 1 := by
  induction l with
  | nil => cases hm
  | cons e rest ih =>
    rw [List.pairwise_cons] at hnd
    rw [List.countP_cons]
    rcases List.mem_cons.mp hm with hEq | hMem
    · have hek : e.1 = k := by rw [← hEq]
      have h0 : rest.countP (fun x => decide (x.1 = k)) = 0 := by
        rw [List.countP_eq_zero]
        intro a ha
        simp only [decide_eq_true_eq]
        intro hak
        exact (hnd.1 a ha) (hek.trans hak.symm)
      rw [h0]
      simp [hek]
    · have hek : e.1 ≠ k := by
        intro h
        exact (hnd.1 (k, v) hMem) h
      rw [ih hnd.2 hMem]
      simp [hek]

/-- In a distinct-key table the key determines the stored usage. -/
theorem key_determines_value {l : List (String × ColorUsage)} {k : String}
    {v v2 : ColorUsage} (hnd : l.Pairwise (fun a b => a.1 ≠ b.1))
    (h1 : (k, v) ∈ l) (h2 : (k, v2) ∈ l) : v = v2 := by
  induction l with
  | nil => cases h1
  | cons e rest ih =>
    rw [List.pairwise_cons] at hnd
    rcases List.mem_cons.mp h1 with hEq1 | hMem1
    · rcases List.mem_cons.mp h2 with hEq2 | hMem2
      · rw [← hEq2] at hEq1
        exact (Prod.mk.injEq .. ▸ congrArg id hEq1).2
      · exact absurd (show e.1 = k from by rw [← hEq1]) (hnd.1 (k, v2) hMem2)
    · rcases List.mem_cons.mp h2 with hEq2 | hMem2
      · exact absurd (show e.1 = k from by rw [← hEq2]) (hnd.1 (k, v) hMem1)
      · exact ih hnd.2 hMem1 hMem2

/-- In a distinct-key table two entries cannot occur in both orders. -/
theorem sublist_pair_order {l : List (String × ColorUsage)}
    (hnd : l.Pairwise (fun a b => a.1 ≠ b.1)) {a b : String}
    {ua ub ua2 ub2 : ColorUsage}
    (h1 : List.Sublist [(a, ua), (b, ub)] l)
    (h2 : List.Sublist [(b, ua2), (a, ub2)] l)
    (hne : a ≠ b) : False := by
  induction l with
  | nil => simp at h1
  | cons e rest ih =>
    rw [List.pairwise_cons] at hnd
    cases h1 with
    | cons₂ _ hs1 =>
      cases h2 with
      | cons₂ _ hs2 => exact hne rfl
      | cons _ hs2 =>
        have hmem : (a, ub2) ∈ rest := hs2.subset (List.mem_cons_of_mem _ (List.mem_singleton_self _))
        exact (hnd.1 (a, ub2) hmem) rfl
    | cons _ hs1 =>
      cases h2 with
      | cons₂ _ hs2 =>
        have hmem : (b, ub) ∈ rest := hs1.subset (List.mem_cons_of_mem _ (List.mem_singleton_self _))
        exact (hnd.1 (b, ub) hmem) rfl
      | cons _ hs2 => exact ih hnd.2 hs1 hs2

/-- Count of (c1, c2)-issues emitted by the inner pair loop. -/
theorem innerPairScan_countP (e : String × ColorUsage) (c1 c2 : String) :
    ∀ (rest : List (String × ColorUsage)) (cnt : ℕ),
      ((innerPairScan e rest cnt).1.countP
          (fun iss => decide (iss.details.pairColors? = some (c1, c2))))
        = if e.1 = c1
            then rest.countP (fun x => decide (x.1 = c2) && isNearDuplicate e.1 x.1)
            else 0 := by
  intro rest
  induction rest with
  | nil =>
    intro cnt
    simp only [innerPairScan, List.countP_nil]
    split <;> rfl
  | cons x rest ih =>
    intro cnt
    simp only [innerPairScan]
    split
    case isTrue hdup =>
      rw [List.countP_cons, List.countP_cons, ih (cnt + 1)]
      by_cases h1 : e.1 = c1
      · by_cases h2 : x.1 = c2
        · rw [h1, h2] at hdup
          simp [mkPairIssue, IssueDetails.pairColors?, h1, h2, hdup]
        · simp [mkPairIssue, IssueDetails.pairColors?, h1, h2]
      · simp [mkPairIssue, IssueDetails.pairColors?, h1]
    case isFalse hdup =>
      rw [List.countP_cons, ih cnt]
      simp [hdup]

/-- When `c1` is not a key of the table, no (c1, c2)-issue is emitted. -/
theorem pairScan_countP_zero (c1 c2 : String) :
    ∀ (used : List (String × ColorUsage)) (cnt : ℕ),
      (∀ x ∈ used, x.1 ≠ c1) →
      ((pairScan used cnt).1.countP
          (fun iss => decide (iss.details.pairColors? = some (c1, c2)))) = 0 := by
  intro used cnt hkey
  rw [List.countP_eq_zero]
  intro iss hm
  simp only [decide_eq_true_eq]
  intro hp
  obtain ⟨a1, w1, a2, w2, hsub, -, -, hdet, -⟩ := pairScan_issue_shape used cnt iss hm
  rw [hdet] at hp
  simp only [IssueDetails.pairColors?, Option.some.injEq, Prod.mk.injEq] at hp
  have hmem : (a1, w1) ∈ used := hsub.subset (List.mem_cons_self _ _)
  exact (hkey (a1, w1) hmem) hp.1

/-- For a near-duplicate pair in collection order, the pair pass emits
exactly one issue keyed to (c1, c2). -/
theorem pairScan_countP_one (c1 c2 : String) (u1 u2 : ColorUsage) :
    ∀ (used : List (String × ColorUsage)) (cnt : ℕ),
      used.Pairwise (fun a b => a.1 ≠ b.1) →
      List.Sublist [(c1, u1), (c2, u2)] used →
      isNearDuplicate c1 c2 = true →
      ((pairScan used cnt).1.countP
          (fun iss => decide (iss.details.pairColors? = some (c1, c2)))) = 1 := by
  intro used
  induction used with
  | nil => intro cnt _ hsub _; simp at hsub
  | cons e rest ih =>
    intro cnt hnd hsub hnear
    rw [List.pairwise_cons] at hnd
    obtain ⟨hne, hndrest⟩ := hnd
    simp only [pairScan]
    rw [List.countP_append]
    cases hsub with
    | cons₂ _ hs =>
      have hc2mem : (c2, u2) ∈ rest := hs.subset (List.mem_singleton_self _)
      rw [innerPairScan_countP, if_pos rfl]
      have hinner : rest.countP (fun x => decide (x.1 = c2) && isNearDuplicate (c1, u1).1 x.1)
          = rest.countP (fun x => decide (x.1 = c2)) := by
        apply List.countP_congr
        intro x hx
        by_cases hx2 : x.1 = c2
        · simp [hx2, hnear]
        · simp [hx2]
      rw [hinner, countP_key_eq_one hndrest hc2mem]
      have hzero := pairScan_countP_zero c1 c2 rest
        ((innerPairScan (c1, u1) rest cnt).2)
        (fun x hx h => (hne x hx) h.symm)
      rw [hzero]
    | cons _ hs =>
      have hc1mem : (c1, u1) ∈ rest := hs.subset (List.mem_cons_self _ _)
      rw [innerPairScan_countP, if_neg (hne (c1, u1) hc1mem)]
      rw [ih _ hndrest hs hnear]

/-- Palette-conformance issues never carry pair colors. -/
theorem paletteScan_pairColors_none (palette : List String) :
    ∀ (l : List (String × ColorUsage)) (cnt : ℕ),
      ∀ iss ∈ (paletteScan palette l cnt).1, iss.details.pairColors? = none := by
  intro l
  induction l with
  | nil => intro cnt iss hm; exact absurd hm (List.not_mem_nil iss)
  | cons cu rest ih =>
    intro cnt iss hm
    simp only [paletteScan] at hm
    split at hm
    · exact ih cnt iss hm
    · split at hm
      · rcases List.mem_cons.mp hm with hEq | hMem
        · subst hEq; rfl
        · exact ih _ iss hMem
      · exact ih cnt iss hm

/-- C4 amended: for every near-duplicate pair of collected colors —
(c1,u1) collected before (c2,u2) with 0 < distance < 15 — `analyzeColors`
emits EXACTLY ONE issue for the unordered pair (one issue keyed (c1,c2)
and none keyed (c2,c1)), it is medium severity, and its fix consolidates
onto `c1`, the FIRST-collected color, regardless of which color has the
higher occurrence count. -/
theorem color_pair_recommends_first_collected
    (snaps : List ViewportSnapshot) (cfg : KarenConfig) (cnt : ℕ)
    (c1 c2 : String) (u1 u2 : ColorUsage)
    (hsub : List.Sublist [(c1, u1), (c2, u2)] (collectColors snaps))
    (hnear : isNearDuplicate c1 c2 = true) :
    ((analyzeColors snaps cfg cnt).1.countP
        (fun iss => decide (iss.details.pairColors? = some (c1, c2)))) = 1
    ∧ ((analyzeColors snaps cfg cnt).1.countP
        (fun iss => decide (iss.details.pairColors? = some (c2, c1)))) = 0
    ∧ ∀ iss ∈ (analyzeColors snaps cfg cnt).1,
        iss.details.pairColors? = some (c1, c2) →
          iss.severity = .medium
          ∧ iss.details = .colorPair c1 c2 u1.count u2.count
              ((dedupKeepFirst (u1.elements ++ u2.elements)).take 5)
          ∧ iss.fix = some
              { suggestion := "Consolidate to a single color."
                code := some
                  { file := "styles/colors.css"
                    before := "color: " ++ c2 ++ ";"
                    after := "color: " ++ c1 ++ ";"
                    explanation := none } } := by
  have hnd := collectColors_keys_nodup snaps
  have hne12 : c1 ≠ c2 := by
    have hp := List.Pairwise.sublist hsub hnd
    rw [List.pairwise_cons] at hp
    exact hp.1 (c2, u2) (List.mem_singleton_self _)
  have hpal : ∀ cnt2, ∀ iss ∈ (paletteScan cfg.colorPalette (collectColors snaps) cnt2).1,
      iss.details.pairColors? = none :=
    fun cnt2 => paletteScan_pairColors_none cfg.colorPalette (collectColors snaps) cnt2
  simp only [analyzeColors]
  refine ⟨?_, ?_, ?_⟩
  · rw [List.countP_append, pairScan_countP_one c1 c2 u1 u2 _ _ hnd hsub hnear]
    have h0 : ((paletteScan cfg.colorPalette (collectColors snaps)
        ((pairScan (collectColors snaps) cnt).2)).1.countP
        (fun iss => decide (iss.details.pairColors? = some (c1, c2)))) = 0 := by
      rw [List.countP_eq_zero]
      intro iss hm
      simp only [decide_eq_true_eq]
      rw [hpal _ iss hm]
      simp
    rw [h0]
  · rw [List.countP_append]
    have h1 : ((pairScan (collectColors snaps) cnt).1.countP
        (fun iss => decide (iss.details.pairColors? = some (c2, c1)))) = 0 := by
      rw [List.countP_eq_zero]
      intro iss hm
      simp only [decide_eq_true_eq]
      intro hp
      obtain ⟨a1, w1, a2, w2, hsub2, -, -, hdet, -⟩ :=
        pairScan_issue_shape (collectColors snaps) cnt iss hm
      rw [hdet] at hp
      simp only [IssueDetails.pairColors?, Option.some.injEq, Prod.mk.injEq] at hp
      rw [hp.1, hp.2] at hsub2
      exact sublist_pair_order hnd hsub hsub2 hne12
    have h2 : ((paletteScan cfg.colorPalette (collectColors snaps)
        ((pairScan (collectColors snaps) cnt).2)).1.countP
        (fun iss => decide (iss.details.pairColors? = some (c2, c1)))) = 0 := by
      rw [List.countP_eq_zero]
      intro iss hm
      simp only [decide_eq_true_eq]
      rw [hpal _ iss hm]
      simp
    rw [h1, h2]
  · intro iss hm hp
    rcases List.mem_append.mp hm with hMem | hMem
    · obtain ⟨a1, w1, a2, w2, hsub2, -, hsev, hdet, hfix⟩ :=
        pairScan_issue_shape (collectColors snaps) cnt iss hMem
      rw [hdet] at hp
      simp only [IssueDetails.pairColors?, Option.some.injEq, Prod.mk.injEq] at hp
      obtain ⟨hp1, hp2⟩ := hp
      subst hp1
      subst hp2
      have hm1 : (a1, w1) ∈ collectColors snaps := hsub2.subset (List.mem_cons_self _ _)
      have hm1b : (a1, u1) ∈ collectColors snaps := hsub.subset (List.mem_cons_self _ _)
      have hm2 : (a2, w2) ∈ collectColors snaps :=
        hsub2.subset (List.mem_cons_of_mem _ (List.mem_singleton_self _))
      have hm2b : (a2, u2) ∈ collectColors snaps :=
        hsub.subset (List.mem_cons_of_mem _ (List.mem_singleton_self _))
      have hw1 : w1 = u1 := key_determines_value hnd hm1 hm1b
      have hw2 : w2 = u2 := key_determines_value hnd hm2 hm2b
      subst hw1
      subst hw2
      exact ⟨hsev, hdet, hfix⟩
    · rw [hpal _ iss hMem] at hp
      cases hp

/-- C4 amended witness: on `c4Snapshot` the pair (#AABBC5 collected
first with 3 uses, #AABBCC second with 5 uses) yields exactly one medium
issue recommending #AABBC5. -/
theorem color_pair_recommends_first_collected_witness :
    List.Sublist [("#AABBC5", ColorUsage.mk 3 [".a"]), ("#AABBCC", ColorUsage.mk 5 [".b"])]
        (collectColors [c4Snapshot])
    ∧ isNearDuplicate "#AABBC5" "#AABBCC" = true
    ∧ ((analyzeColors [c4Snapshot] c4Config 0).1.countP
        (fun iss => decide (iss.details.pairColors? = some ("#AABBC5", "#AABBCC")))) = 1
    ∧ ((analyzeColors [c4Snapshot] c4Config 0).1.countP
        (fun iss => decide (iss.details.pairColors? = some ("#AABBCC", "#AABBC5")))) = 0
    ∧ ∀ iss ∈ (analyzeColors [c4Snapshot] c4Config 0).1,
        iss.details.pairColors? = some ("#AABBC5", "#AABBCC") →
          iss.severity = .medium
          ∧ iss.details = .colorPair "#AABBC5" "#AABBCC" (ColorUsage.mk 3 [".a"]).count
              (ColorUsage.mk 5 [".b"]).count
              ((dedupKeepFirst ((ColorUsage.mk 3 [".a"]).elements
                  ++ (ColorUsage.mk 5 [".b"]).elements)).take 5)
          ∧ iss.fix = some
              { suggestion := "Consolidate to a single color."
                code := some
                  { file := "styles/colors.css"
                    before := "color: " ++ "#AABBCC" ++ ";"
                    after := "color: " ++ "#AABBC5" ++ ";"
                    explanation := none } } := by
  have hcoll : collectColors [c4Snapshot] = c4Used := by with_unfolding_all rfl
  have hsub : List.Sublist
      [("#AABBC5", ColorUsage.mk 3 [".a"]), ("#AABBCC", ColorUsage.mk 5 [".b"])]
      (collectColors [c4Snapshot]) := by
    rw [hcoll]
    exact List.Sublist.refl _
  have h := color_pair_recommends_first_collected [c4Snapshot] c4Config 0
    "#AABBC5" "#AABBCC" (ColorUsage.mk 3 [".a"]) (ColorUsage.mk 5 [".b"])
    hsub (by with_unfolding_all decide)
  exact ⟨hsub, by with_unfolding_all decide, h.1, h.2.1, h.2.2⟩
